import Mathlib

/-!
Shallow embedding of the material-graph compiler in
`src/addons/bl_datasmith/export_material.py`, together with proofs about the
behaviour its specification claims.

Modelling conventions:
* Python floats are modelled as rationals; the `"%f"`-style string formatting
  done at serialization time is out of scope, so expression attributes store
  the rational values directly.
* Python dicts that map names to expression references are modelled as
  insertion-ordered association lists (`List (key × value)`), matching the
  insertion-order semantics of Python dicts.
* The emitted expression list (`Node("Expressions")` children in the source)
  is a `List Node`; `exp_list_push` mirrors `Node.push`, which appends and
  returns the index of the appended child.
* Python exceptions (KeyError, AssertionError) are modelled with `Except`.
-/

namespace BlDatasmith

/-- A reference to an already-emitted expression, i.e. the Python dict
`("expression" : idx, "OutputIndex" : out)` or the tuple `(idx, out)`. -/
structure Ref where
  expression : Nat
  outputIndex : Nat
deriving DecidableEq, Repr

/-- One `<Input Name=... expression=... OutputIndex=.../>` child of an emitted
expression, as produced by `exp_input`.  The `expression` component is an `Int`
because the source writes `-1` when the referenced expression is `None`. -/
structure InputEdge where
  name : String
  expression : Int
  outputIndex : Nat
deriving DecidableEq, Repr

/-- Attribute values carried by emitted expressions.  The source formats
numbers into strings at this point; we keep the exact rational values. -/
inductive AttrVal where
  | str (s : String)
  | q (v : ℚ)
  | color (r g b a : ℚ)
deriving DecidableEq, Repr

/-- An emitted expression (`Node` in `data_types.py`, as used for material
expressions).  XML `Prop` children are folded into `attrs`. -/
structure Node where
  tag : String
  attrs : List (String × AttrVal) := []
  inputs : List InputEdge := []
deriving DecidableEq, Repr

/-- Model-level decidable equality for `Except`, so concrete runs of the
fallible translators can be checked by evaluation. -/
instance {x y : Type} [DecidableEq x] [DecidableEq y] : DecidableEq (Except x y) :=
  fun a b =>
  match a, b with
  | .ok u, .ok v =>
      if h : u = v then .isTrue (h ▸ rfl) else .isFalse (fun he => h (Except.ok.inj he))
  | .error u, .error v =>
      if h : u = v then .isTrue (h ▸ rfl) else .isFalse (fun he => h (Except.error.inj he))
  | .ok _, .error _ => .isFalse (fun he => Except.noConfusion he)
  | .error _, .ok _ => .isFalse (fun he => Except.noConfusion he)


/-- The expression list of one material (`exp_list` in the source). -/
abbrev ExpList := List Node

/-- Model of `Node.push`: append a child and return its index (the previous length). -/
def exp_list_push (el : ExpList) (n : Node) : Nat × ExpList :=
  (el.length, el ++ [n])

/-- Model of `exp_input(input_idx, expression)`: build one input edge; `None`
becomes `expression="-1"`. -/
def exp_input (name : String) (e : Option Ref) : InputEdge :=
  match e with
  | some r => { name := name, expression := (r.expression : Int), outputIndex := r.outputIndex }
  | none => { name := name, expression := -1, outputIndex := 0 }

/-- Model of `push_exp_input`: add an input edge to a node, skipping `None`. -/
def push_exp_input (n : Node) (name : String) (e : Option Ref) : Node :=
  match e with
  | some _ => { n with inputs := n.inputs ++ [exp_input name e] }
  | none => n

/-- The node emitted by `exp_scalar`. -/
def scalarNode (v : ℚ) : Node :=
  { tag := "Scalar", attrs := [("constant", AttrVal.q v)] }

/-- Model of `exp_scalar(value, exp_list)`. -/
def exp_scalar (value : ℚ) (el : ExpList) : Nat × ExpList :=
  exp_list_push el (scalarNode value)

/-- The `Color` node emitted by `exp_vector`/`exp_color`. -/
def colorNode (r g b a : ℚ) : Node :=
  { tag := "Color", attrs := [("constant", AttrVal.color r g b a)] }

/-- Model of `exp_vector(value, exp_list)`: a `Color` constant with `A=1.0`. -/
def exp_vector (x y z : ℚ) (el : ExpList) : Nat × ExpList :=
  exp_list_push el (colorNode x y z 1)

/-- Model of `exp_color(value, exp_list)`: pushes the `Color` constant, then a
`Scalar` holding the alpha, then an `AppendVector` of the two; returns
the index of the `AppendVector`. -/
def exp_color (r g b a : ℚ) (el : ExpList) : Nat × ExpList :=
  let (color_exp, el) := exp_list_push el (colorNode r g b a)
  let (alpha_exp, el) := exp_scalar a el
  let append : Node :=
    { tag := "AppendVector",
      inputs := [exp_input "0" (some ⟨color_exp, 0⟩), exp_input "1" (some ⟨alpha_exp, 0⟩)] }
  exp_list_push el append

/-- Python dict assignment `d[k] = v` on an association list: overwrite the
value at an existing key in place, else append. -/
def setKey {κ α : Type} [DecidableEq κ] (l : List (κ × α)) (k : κ) (v : α) :
    List (κ × α) :=
  if (l.lookup k).isSome then
    l.map (fun p => if p.1 = k then (k, v) else p)
  else
    l ++ [(k, v)]

/-- A Shader Aggregate: the dict (`bsdf` / `expressions` in the source)
mapping channel names such as `"BaseColor"` to expression references.
A key can be present with value `none` (the Python dict can store `None`). -/
abbrev Aggregate := List (String × Option Ref)

/-- Python `d.get(k)` on an aggregate: `none` both when the key is absent
and when it is stored with value `None`. -/
def pyGet (a : Aggregate) (k : String) : Option Ref :=
  (a.lookup k).join

/-- Socket types relevant to the resolver (`field.type` strings in Blender). -/
inductive SockType where
  | VALUE
  | RGBA
  | VECTOR
  | SHADER
deriving DecidableEq, Repr

/-- The texture context constants `MAT_CTX_BUMP` / `MAT_CTX_NORMAL`. -/
inductive MatCtx where
  | BUMP
  | NORMAL
deriving DecidableEq, Repr

/-- An upstream output socket (`link.from_socket`).  `id` identifies the
socket object, `nodeId` the node owning it; `name` is `socket.name`. -/
structure Socket where
  id : Nat
  stype : SockType
  nodeId : Nat
  name : String
deriving DecidableEq, Repr

/-- Default values carried by input sockets.  For `VECTOR` sockets,
`genuine := true` models `type(default_value) in (Vector, Euler)` (a real
fixed vector) as opposed to a `bpy_prop_array` procedural default. -/
inductive DefaultVal where
  | value (v : ℚ)
  | rgba (r g b a : ℚ)
  | vector (x y z : ℚ) (genuine : Bool)
  | shader
deriving DecidableEq, Repr

/-- An input socket (`field` in the source).  `link = some s` models a
connected field whose first link's `from_socket` is `s` and is enabled. -/
structure Field where
  ftype : SockType
  link : Option Socket
  default_value : DefaultVal
deriving DecidableEq, Repr

/-- The values returned by `get_expression` / `get_expression_inner`:
`None`, a dict with an `"expression"` key, or a shader-aggregate dict. -/
inductive ExpResult where
  | none
  | ref (r : Ref)
  | shader (agg : Aggregate)
deriving DecidableEq, Repr

/-- Python truthiness of an `ExpResult`: `None` and the empty dict are
falsy, everything else truthy. -/
def ExpResult.isTruthy : ExpResult → Bool
  | .none => false
  | .ref _ => true
  | .shader agg => !agg.isEmpty

/-- View an `ExpResult` as an expression reference, as `exp_input` and
`push_exp_input` consume it (a shader aggregate never reaches them on the
coercion paths because aggregates only arise from `SHADER` outputs). -/
def ExpResult.toRef : ExpResult → Option Ref
  | .ref r => some r
  | _ => Option.none

/-- The per-material mutable globals threaded through the resolver:
`reverse_expressions`, `cached_nodes`, `context_stack`, `group_context`
and the expression list.  The top of `context_stack` is the list head. -/
structure ResolveState where
  reverse_expressions : List (Socket × ExpResult) := []
  cached_nodes : List (Nat × (Nat × List String)) := []
  context_stack : List MatCtx := []
  group_context : List (String × (ExpResult × Bool)) := []
  exp_list : ExpList := []
deriving DecidableEq, Repr

/-- Model of `get_context()`: the top of the context stack, if any. -/
def get_context (st : ResolveState) : Option MatCtx :=
  st.context_stack.head?

def MAT_FUNC_RGB_TO_BW : String :=
  "/DatasmithBlenderContent/MaterialFunctions/RGB_To_BW"

def MAT_FUNC_COMBINE_RGB : String :=
  "/DatasmithBlenderContent/MaterialFunctions/CombineRGB"

def MAT_FUNC_PASSTHROUGH : String :=
  "/DatasmithBlenderContent/MaterialFunctions/Passthrough"

/-- The post-resolution type-coercion tail of `get_expression`
(`export_material.py` lines 494-547), keyed on the requesting input type
and the producing output type.  Any combination not handled there returns
the expression unchanged. -/
def coerce_expression (ftype stype : SockType) (return_exp : ExpResult)
    (el : ExpList) : ExpResult × ExpList :=
  match ftype, stype with
  | .VALUE, .RGBA =>
      let n := push_exp_input
        { tag := "FunctionCall", attrs := [("Function", AttrVal.str MAT_FUNC_RGB_TO_BW)] }
        "0" return_exp.toRef
      let (dot_exp, el) := exp_list_push el n
      (.ref ⟨dot_exp, 0⟩, el)
  | .VALUE, .VECTOR =>
      let n : Node := { tag := "DotProduct", inputs := [exp_input "0" return_exp.toRef] }
      let (exp_1, el) := exp_vector (333333/1000000) (333333/1000000) (333333/1000000) el
      let n := { n with inputs := n.inputs ++ [exp_input "1" (some ⟨exp_1, 0⟩)] }
      let (dot_exp, el) := exp_list_push el n
      (.ref ⟨dot_exp, 0⟩, el)
  | .VECTOR, .RGBA =>
      let n := push_exp_input
        { tag := "ComponentMask",
          attrs := [("R", AttrVal.str "True"), ("G", AttrVal.str "True"), ("B", AttrVal.str "True")] }
        "0" return_exp.toRef
      let (i, el) := exp_list_push el n
      (.ref ⟨i, 0⟩, el)
  | .RGBA, .VECTOR =>
      let (alpha, el) := exp_scalar 1 el
      let n := push_exp_input { tag := "AppendVector" } "0" return_exp.toRef
      let n := push_exp_input n "1" (some ⟨alpha, 0⟩)
      let (i, el) := exp_list_push el n
      (.ref ⟨i, 0⟩, el)
  | .RGBA, .VALUE =>
      let n := push_exp_input
        { tag := "FunctionCall", attrs := [("Function", AttrVal.str MAT_FUNC_COMBINE_RGB)] }
        "0" return_exp.toRef
      let n := push_exp_input n "1" return_exp.toRef
      let n := push_exp_input n "2" return_exp.toRef
      let (i, el) := exp_list_push el n
      (.ref ⟨i, 0⟩, el)
  | .SHADER, .VALUE | .SHADER, .RGBA | .SHADER, .VECTOR =>
      let (exp_base_color, el) := exp_color 0 0 0 1 el
      (.shader [("BaseColor", some ⟨exp_base_color, 0⟩), ("EmissiveColor", return_exp.toRef)], el)
  | _, _ => (return_exp, el)

/-- The unconnected-field branch of `get_expression`
(`export_material.py` lines 451-483): synthesize a constant from the
socket default.  Under `NORMAL` context an RGBA default is remapped
channel-wise by `c * 2 - 1` on R, G, B (alpha kept).  A `VECTOR` default
is used only when forced or genuinely a fixed vector; a `SHADER` default
is the holdout-like stub.  Anything else resolves to `None`. -/
def resolve_default (field : Field) (force_default : Bool) (st : ResolveState) :
    ExpResult × ResolveState :=
  match field.ftype, field.default_value with
  | .VALUE, .value v =>
      let (i, el) := exp_scalar v st.exp_list
      (.ref ⟨i, 0⟩, { st with exp_list := el })
  | .RGBA, .rgba r g b a =>
      let (i, el) :=
        if get_context st = some MatCtx.NORMAL then
          exp_color (r * 2 - 1) (g * 2 - 1) (b * 2 - 1) a st.exp_list
        else
          exp_color r g b a st.exp_list
      (.ref ⟨i, 0⟩, { st with exp_list := el })
  | .VECTOR, .vector x y z genuine =>
      if force_default || genuine then
        let (i, el) := exp_vector x y z st.exp_list
        (.ref ⟨i, 0⟩, { st with exp_list := el })
      else
        (.none, st)
  | .SHADER, _ =>
      let (b, el) := exp_scalar 0 st.exp_list
      let (r, el) := exp_scalar 1 el
      (.shader [("BaseColor", some ⟨b, 0⟩), ("Roughness", some ⟨r, 0⟩)],
       { st with exp_list := el })
  | _, _ => (.none, st)

/-- Model of `exp_from_cache(cached_node, socket_name)`: reuse a multi-output node's
cached expression index, selecting the output slot by name, with the one
documented alias: a `"Factor"` request still resolves a cached `"Fac"`
slot.  (`List.indexOf` stands for Python `list.index`.) -/
def exp_from_cache (cached_node : Nat × List String) (socket_name : String) :
    ExpResult :=
  let socket_names := cached_node.2
  let output_index :=
    if socket_name = "Factor" ∧ socket_names.contains "Fac" then
      socket_names.indexOf "Fac"
    else
      socket_names.indexOf socket_name
  .ref ⟨cached_node.1, output_index⟩

/-- The memoization head of `get_expression_inner`
(`export_material.py` lines 562-571): serve from `reverse_expressions`
keyed by the output socket, else from `cached_nodes` keyed by the owning
node, else fall through to the per-node-type dispatch, which is the
`translate` parameter of this model. -/
def get_expression_inner
    (translate : Socket → ResolveState → ExpResult × ResolveState)
    (socket : Socket) (st : ResolveState) : ExpResult × ResolveState :=
  match st.reverse_expressions.lookup socket with
  | some cached => (cached, st)
  | Option.none =>
      match st.cached_nodes.lookup socket.nodeId with
      | some cached_node => (exp_from_cache cached_node socket.name, st)
      | Option.none => translate socket st

/-- Model of `get_expression(field, exp_list, force_default, ...)`: unconnected
fields go to `resolve_default`; connected fields delegate to
`get_expression_inner` on the upstream output socket, memoize the result
in `reverse_expressions` keyed by that socket, and then apply the type
coercion when the result is truthy. -/
def get_expression
    (translate : Socket → ResolveState → ExpResult × ResolveState)
    (field : Field) (st : ResolveState) (force_default : Bool := false) :
    ExpResult × ResolveState :=
  match field.link with
  | Option.none => resolve_default field force_default st
  | some socket =>
      let (return_exp, st) := get_expression_inner translate socket st
      let st :=
        { st with reverse_expressions := setKey st.reverse_expressions socket return_exp }
      if return_exp.isTruthy then
        let (coerced, el) := coerce_expression field.ftype socket.stype return_exp st.exp_list
        (coerced, { st with exp_list := el })
      else
        (return_exp, st)

/-- Python's lexicographic string comparison, by Unicode code point, on the
underlying character lists (`a <= b` for `str`). -/
def pyStrLeData : List Char → List Char → Bool
  | [], _ => true
  | _ :: _, [] => false
  | a :: as, b :: bs =>
      if a.toNat < b.toNat then true
      else if b.toNat < a.toNat then false
      else pyStrLeData as bs

/-- Model of Python's `<=` on `str`: lexicographic by code point. -/
def pyStrLe (a b : String) : Prop := pyStrLeData a.data b.data = true

instance : DecidableRel pyStrLe :=
  fun a b => inferInstanceAs (Decidable (pyStrLeData a.data b.data = true))

instance : IsTotal String pyStrLe where
  total a b := by
    suffices hsuff : ∀ as bs, pyStrLeData as bs = true ∨ pyStrLeData bs as = true from
      hsuff a.data b.data
    intro as
    induction as with
    | nil => intro bs; exact .inl rfl
    | cons a as ih =>
        intro bs
        cases bs with
        | nil => exact .inr rfl
        | cons b bs =>
            simp only [pyStrLeData]
            rcases Nat.lt_trichotomy a.toNat b.toNat with h1 | h1 | h1
            · left; rw [if_pos h1]
            · rcases ih bs with h2 | h2
              · left
                rw [if_neg (by omega : ¬ a.toNat < b.toNat),
                  if_neg (by omega : ¬ b.toNat < a.toNat)]
                exact h2
              · right
                rw [if_neg (by omega : ¬ b.toNat < a.toNat),
                  if_neg (by omega : ¬ a.toNat < b.toNat)]
                exact h2
            · right; rw [if_pos h1]

instance : IsTrans String pyStrLe where
  trans a b c h1 h2 := by
    suffices hsuff : ∀ as bs cs, pyStrLeData as bs = true → pyStrLeData bs cs = true →
        pyStrLeData as cs = true from hsuff a.data b.data c.data h1 h2
    intro as
    induction as with
    | nil => intro bs cs _ _; rfl
    | cons a as ih =>
        intro bs cs hx1 hx2
        cases bs with
        | nil => simp [pyStrLeData] at hx1
        | cons b bs =>
            cases cs with
            | nil => simp [pyStrLeData] at hx2
            | cons c cs =>
                have hab : a.toNat ≤ b.toNat := by
                  by_contra hx
                  simp only [pyStrLeData, if_neg (by omega : ¬ a.toNat < b.toNat),
                    if_pos (by omega : b.toNat < a.toNat)] at hx1
                  exact Bool.false_ne_true hx1
                have hbc : b.toNat ≤ c.toNat := by
                  by_contra hx
                  simp only [pyStrLeData, if_neg (by omega : ¬ b.toNat < c.toNat),
                    if_pos (by omega : c.toNat < b.toNat)] at hx2
                  exact Bool.false_ne_true hx2
                simp only [pyStrLeData] at hx1 hx2 ⊢
                by_cases hac : a.toNat < c.toNat
                · rw [if_pos hac]
                · rw [if_neg hac, if_neg (by omega : ¬ c.toNat < a.toNat)]
                  rw [if_neg (by omega : ¬ a.toNat < b.toNat),
                    if_neg (by omega : ¬ b.toNat < a.toNat)] at hx1
                  rw [if_neg (by omega : ¬ b.toNat < c.toNat),
                    if_neg (by omega : ¬ c.toNat < b.toNat)] at hx2
                  exact ih bs cs hx1 hx2

/-- The sorted union of channel names of two aggregates:
`sorted(set(expressions.keys()) | set(expressions1.keys()))` in the
`ADD_SHADER` branch (the source sorts "to have deterministic outputs");
`sorted` on `str` uses Python's code-point lexicographic order `pyStrLe`. -/
def allKeys (A B : Aggregate) : List String :=
  ((A.map Prod.fst ++ B.map Prod.fst).dedup).insertionSort pyStrLe

/-- Model of `make_default_for_field` from the `ADD_SHADER` branch.  Note: this
helper is defined but never called in the source. -/
def make_default_for_field (field_name : String) (el : ExpList) : Ref × ExpList :=
  if field_name = "Opacity" then
    let (i, el) := exp_scalar 1 el
    (⟨i, 0⟩, el)
  else
    let (i, el) := exp_scalar 0 el
    (⟨i, 0⟩, el)

/-- One iteration of the `ADD_SHADER` channel loop
(`export_material.py` lines 785-812) for channel `name`:
* both sides present: an `"Add"` expression for `BaseColor`/`EmissiveColor`,
  else a `LinearInterpolate` with a fresh `Scalar 0.5` factor;
* one side only (or stored `None`): for `Opacity` a `LinearInterpolate`
  against fresh `Scalar 1` with fresh `Scalar 0.5` factor, otherwise the
  present side's value is stored unchanged;
* then `assert add_expression[name]` for every channel except `Normal`,
  modelled as an `Except.error` (Python `AssertionError`). -/
def add_shader_step (A B : Aggregate) (acc : Aggregate × ExpList) (name : String) :
    Except String (Aggregate × ExpList) :=
  let exp_a := pyGet A name
  let exp_b := pyGet B name
  let (add_expression, el) :=
    match exp_a, exp_b with
    | some a, some b =>
        let use_add := ["BaseColor", "EmissiveColor"].contains name
        let n : Node :=
          { tag := if use_add then "Add" else "LinearInterpolate",
            inputs := [exp_input "0" (some a), exp_input "1" (some b)] }
        let (n, el) :=
          if use_add then (n, acc.2)
          else
            let (half, el) := exp_scalar (1/2) acc.2
            ({ n with inputs := n.inputs ++ [exp_input "2" (some ⟨half, 0⟩)] }, el)
        let (i, el) := exp_list_push el n
        (setKey acc.1 name (some ⟨i, 0⟩), el)
    | _, _ =>
        let exp := exp_a.or exp_b
        if name = "Opacity" then
          let n : Node := { tag := "LinearInterpolate", inputs := [exp_input "0" exp] }
          let (one, el) := exp_scalar 1 acc.2
          let n := { n with inputs := n.inputs ++ [exp_input "1" (some ⟨one, 0⟩)] }
          let (half, el) := exp_scalar (1/2) el
          let n := { n with inputs := n.inputs ++ [exp_input "2" (some ⟨half, 0⟩)] }
          let (i, el) := exp_list_push el n
          (setKey acc.1 name (some ⟨i, 0⟩), el)
        else
          (setKey acc.1 name exp, acc.2)
  if name = "Normal" then
    .ok (add_expression, el)
  else if (pyGet add_expression name).isSome then
    .ok (add_expression, el)
  else
    .error "AssertionError"

/-- The `for name in all_keys` loop of the `ADD_SHADER` branch: run
`add_shader_step` over the channel names in order, stopping at the first
assertion failure (which aborts the material). -/
def add_shader_fold (A B : Aggregate) : List String → Aggregate × ExpList →
    Except String (Aggregate × ExpList)
  | [], acc => .ok acc
  | name :: rest, acc =>
      match add_shader_step A B acc name with
      | .ok acc' => add_shader_fold A B rest acc'
      | .error e => .error e

/-- The `ADD_SHADER` merge (`export_material.py` lines 765-814) of the two
already-resolved operand aggregates: fold `add_shader_step` over the
sorted union of channel names, starting from an empty result dict. -/
def add_shader_merge (A B : Aggregate) (el : ExpList) :
    Except String (Aggregate × ExpList) :=
  add_shader_fold A B (allKeys A B) (([] : Aggregate), el)

/-- What the `ADD_SHADER` loop does to one channel, as a relation between
the operand values `a`/`b` (Python `expressions.get(name)`), the merged
aggregate and the final expression list:
* both sides truthy: a fresh `"Add"` for `BaseColor`/`EmissiveColor`, a
  fresh 50% `LinearInterpolate` otherwise;
* one side truthy: for `Opacity` a fresh `LinearInterpolate` against a
  fresh `Scalar 1` with a fresh `Scalar 0.5` factor; otherwise the truthy
  side's reference is stored unchanged (no synthesized default);
* neither side truthy: same `Opacity` interpolation with a dangling first
  input, and otherwise only `Normal` survives (stored as `None`). -/
def addChannelSpec (a b : Option Ref) (name : String) (res : Aggregate)
    (el' : ExpList) : Prop :=
  match a, b with
  | some x, some y =>
      if name = "BaseColor" ∨ name = "EmissiveColor" then
        ∃ i, res.lookup name = some (some ⟨i, 0⟩) ∧
          el'[i]? = some (Node.mk "Add" []
            [exp_input "0" (some x), exp_input "1" (some y)])
      else
        ∃ i j, res.lookup name = some (some ⟨i, 0⟩) ∧
          el'[j]? = some (scalarNode (1/2)) ∧
          el'[i]? = some (Node.mk "LinearInterpolate" []
            [exp_input "0" (some x), exp_input "1" (some y),
             exp_input "2" (some ⟨j, 0⟩)])
  | some x, Option.none | Option.none, some x =>
      if name = "Opacity" then
        ∃ i j k, res.lookup name = some (some ⟨i, 0⟩) ∧
          el'[j]? = some (scalarNode 1) ∧
          el'[k]? = some (scalarNode (1/2)) ∧
          el'[i]? = some (Node.mk "LinearInterpolate" []
            [exp_input "0" (some x), exp_input "1" (some ⟨j, 0⟩),
             exp_input "2" (some ⟨k, 0⟩)])
      else
        res.lookup name = some (some x)
  | Option.none, Option.none =>
      if name = "Opacity" then
        ∃ i j k, res.lookup name = some (some ⟨i, 0⟩) ∧
          el'[j]? = some (scalarNode 1) ∧
          el'[k]? = some (scalarNode (1/2)) ∧
          el'[i]? = some (Node.mk "LinearInterpolate" []
            [exp_input "0" Option.none, exp_input "1" (some ⟨j, 0⟩),
             exp_input "2" (some ⟨k, 0⟩)])
      else
        name = "Normal" ∧ res.lookup name = some Option.none

/-- The Opacity-forcing prologue of the `MIX_SHADER` branch
(`export_material.py` lines 823-828): if either aggregate has an
`"Opacity"` key, synthesize a `Scalar 1` constant into whichever side
lacks it. -/
def mix_force_opacity (A B : Aggregate) (el : ExpList) :
    Aggregate × Aggregate × ExpList :=
  if (A.lookup "Opacity").isSome || (B.lookup "Opacity").isSome then
    let (A, el) :=
      if (A.lookup "Opacity").isSome then (A, el)
      else
        let (i, el) := exp_scalar 1 el
        (setKey A "Opacity" (some ⟨i, 0⟩), el)
    let (B, el) :=
      if (B.lookup "Opacity").isSome then (B, el)
      else
        let (i, el) := exp_scalar 1 el
        (setKey B "Opacity" (some ⟨i, 0⟩), el)
    (A, B, el)
  else
    (A, B, el)

/-- The `MIX_SHADER` channel loop (`export_material.py` lines 830-838):
for every channel of the second aggregate, blend by the mix factor when
the first aggregate has the channel too, else copy it across; channels
only on the first side are left untouched. -/
def mix_shader_loop (fac : Option Ref) (B : Aggregate) (A : Aggregate)
    (el : ExpList) : Aggregate × ExpList :=
  B.foldl
    (fun (p : Aggregate × ExpList) kv =>
      if (p.1.lookup kv.1).isSome then
        let n : Node :=
          { tag := "LinearInterpolate",
            inputs := [exp_input "0" (pyGet p.1 kv.1), exp_input "1" kv.2,
                       exp_input "2" fac] }
        let (i, el) := exp_list_push p.2 n
        (setKey p.1 kv.1 (some ⟨i, 0⟩), el)
      else
        (setKey p.1 kv.1 kv.2, p.2))
    (A, el)

/-- The `MIX_SHADER` merge (`export_material.py` lines 815-839) of the two
already-resolved operand aggregates.  `fac_of` resolves the node's `"Fac"`
input (which may itself append expressions), exactly where the source
calls `get_expression` on it: after the Opacity forcing, before the loop. -/
def mix_shader_merge (A B : Aggregate) (fac_of : ExpList → Option Ref × ExpList)
    (el : ExpList) : Aggregate × ExpList :=
  mix_shader_loop
    (fac_of (mix_force_opacity A B el).2.2).1
    (mix_force_opacity A B el).2.1
    (mix_force_opacity A B el).1
    (fac_of (mix_force_opacity A B el).2.2).2

/-- Model of `exp_group` (`export_material.py` lines 854-899), with the capture of
the outer inputs and the resolution of the inner graph abstracted as the
state transformers `capture` and `inner`.  The previous `group_context`,
`cached_nodes` and `reverse_expressions` are saved in locals, fresh ones
installed, and the saved ones written back only after `inner` returns
normally: a Python exception raised inside skips the three restore
assignments, which this model renders by returning the error together
with the state as `inner` left it. -/
def exp_group_finish (st : ResolveState) :
    Except String ExpResult × ResolveState →
    Except String ExpResult × ResolveState
  | (.ok inner_exp, st2) =>
      (.ok inner_exp,
       { st2 with group_context := st.group_context,
                  cached_nodes := st.cached_nodes,
                  reverse_expressions := st.reverse_expressions })
  | (.error e, st2) => (.error e, st2)

def exp_group_run
    (capture : ResolveState → List (String × (ExpResult × Bool)) × ResolveState)
    (inner : ResolveState → Except String ExpResult × ResolveState)
    (st : ResolveState) : Except String ExpResult × ResolveState :=
  exp_group_finish st
    (inner { (capture st).2 with group_context := (capture st).1,
                                 reverse_expressions := [],
                                 cached_nodes := [] })

/-- The per-material loop of `collect_all_materials`
(`export_material.py` line 33): a list comprehension over the materials;
a Python exception raised while compiling one material propagates out of
the comprehension, which is exactly `List.mapM` in `Except`. -/
def collect_all_materials_run {μ ρ : Type}
    (collect_pbr_material : μ → Except String ρ) :
    List μ → Except String (List ρ)
  | [] => .ok []
  | mat :: rest =>
      match collect_pbr_material mat with
      | .ok r =>
          match collect_all_materials_run collect_pbr_material rest with
          | .ok rs => .ok (r :: rs)
          | .error e => .error e
      | .error e => .error e

def DATASMITH_TEXTURE_SIZE : Nat := 1024

/-- The export-run-scoped curve-atlas globals: the claim counter
`material_curves_count` and the atlas `material_curves`, the latter
modelled sparsely as the log of written rows (row index as assigned by
the source, which can be negative and is then a Python wrap-around
index into the 1024-row array). -/
structure CurveAtlasState where
  material_curves_count : Nat := 0
  material_curves : List (Int × List (ℚ × ℚ × ℚ × ℚ)) := []
deriving DecidableEq, Repr

/-- Model of `add_material_curve(curve)` (`export_material.py` lines 87-116):
claim the next ordinal, write the sampled curve into row
`DATASMITH_TEXTURE_SIZE - claimed - 1` (sampling at `idx / 1024` for
`idx = 0 .. 1023`), and return the claimed ordinal. -/
def add_material_curve (curve : ℚ → ℚ × ℚ × ℚ × ℚ) (st : CurveAtlasState) :
    Nat × CurveAtlasState :=
  let mat_curve_idx := st.material_curves_count
  let row_idx : Int := (DATASMITH_TEXTURE_SIZE : Int) - mat_curve_idx - 1
  let values := (List.range DATASMITH_TEXTURE_SIZE).map
    (fun idx => curve ((idx : ℚ) / (DATASMITH_TEXTURE_SIZE : ℚ)))
  (mat_curve_idx,
   { material_curves_count := mat_curve_idx + 1,
     material_curves := setKey st.material_curves row_idx values })

/-- A sequence of curve bake requests across one export run, returning the
claimed ordinals in order. -/
def run_material_curves (curves : List (ℚ → ℚ × ℚ × ℚ × ℚ))
    (st : CurveAtlasState) : List Nat × CurveAtlasState :=
  match curves with
  | [] => ([], st)
  | c :: rest =>
      let (i, st) := add_material_curve c st
      let (is, st) := run_material_curves rest st
      (i :: is, st)

/-- The `EMISSION` translator (`export_material.py` lines 725-730): resolve
`Color` and `Strength` and emit a `Multiply` of the two, unconditionally. -/
def exp_emission
    (translate : Socket → ResolveState → ExpResult × ResolveState)
    (color_field strength_field : Field) (st : ResolveState) :
    Aggregate × ResolveState :=
  let (c, st) := get_expression translate color_field st
  let (s, st) := get_expression translate strength_field st
  let mult : Node :=
    { tag := "Multiply", inputs := [exp_input "0" c.toRef, exp_input "1" s.toRef] }
  let (mult_exp, el) := exp_list_push st.exp_list mult
  ([("EmissiveColor", some ⟨mult_exp, 0⟩)], { st with exp_list := el })

/-- The link/default data of the `BSDF_PRINCIPLED` inputs that drive the
conditional channel synthesis. -/
structure PrincipledNode where
  alpha_links : Bool
  alpha_default : ℚ
  emission_strength_links : Bool
  emission_strength_default : ℚ
  coat_links : Bool
  coat_default : ℚ
deriving DecidableEq, Repr

/-- The four unconditional channels of the `BSDF_PRINCIPLED` translator
(`export_material.py` lines 591-600); `resolve` abstracts the
`get_expression` call on each named input. -/
def exp_principled_base (resolve : String → ExpList → Option Ref × ExpList)
    (el : ExpList) : Aggregate × ExpList :=
  let (base, el) := resolve "Base Color" el
  let (metallic, el) := resolve "Metallic" el
  let (roughness, el) := resolve "Roughness" el
  let (specular, el) := resolve "Specular IOR Level" el
  ([("BaseColor", base), ("Metallic", metallic), ("Roughness", roughness),
    ("Specular", specular)], el)

/-- The `BSDF_PRINCIPLED` translator up to and including the conditional
`Opacity` channel (`export_material.py` lines 591-610). -/
def exp_principled_pre (node : PrincipledNode)
    (resolve : String → ExpList → Option Ref × ExpList) (el : ExpList) :
    Aggregate × ExpList :=
  let (bsdf, el) := exp_principled_base resolve el
  let add_opacity := node.alpha_links || node.alpha_default != 1
  if add_opacity then
    let (o, el) := resolve "Alpha" el
    (bsdf ++ [("Opacity", o)], el)
  else (bsdf, el)

/-- The `BSDF_PRINCIPLED` translator's conditional channel synthesis
(`export_material.py` lines 591-645): `Opacity` only when the `Alpha`
input is linked or its default is not 1; `EmissiveColor` as a `Multiply`
by `Emission Strength` only when that input is linked or its default is
not 1, else the resolved emission color directly; `ClearCoat` and
`ClearCoatRoughness` only when the coat-weight input is linked or its
default is not 0. -/
def exp_principled (node : PrincipledNode)
    (resolve : String → ExpList → Option Ref × ExpList) (el : ExpList) :
    Aggregate × ExpList :=
  let (bsdf, el) := exp_principled_pre node resolve el
  let multiply_emission :=
    node.emission_strength_links || node.emission_strength_default != 1
  let (ec, el) := resolve "Emission Color" el
  let (bsdf, el) :=
    if multiply_emission then
      let (es, el) := resolve "Emission Strength" el
      let mult : Node :=
        { tag := "Multiply", inputs := [exp_input "0" ec, exp_input "1" es] }
      let (i, el) := exp_list_push el mult
      (bsdf ++ [("EmissiveColor", some ⟨i, 0⟩)], el)
    else
      (bsdf ++ [("EmissiveColor", ec)], el)
  let use_clear_coat := node.coat_links || node.coat_default != 0
  if use_clear_coat then
    let (cc, el) := resolve "Coat Weight" el
    let (ccr, el) := resolve "Coat Roughness" el
    (bsdf ++ [("ClearCoat", cc), ("ClearCoatRoughness", ccr)], el)
  else
    (bsdf, el)

/-- Replace the node at index `i` (Python mutates node objects already
appended to the expression list; index-addressed update models that). -/
def modifyAt : ExpList → Nat → (Node → Node) → ExpList
  | [], _, _ => []
  | n :: t, 0, f => f n :: t
  | n :: t, i + 1, f => n :: modifyAt t i f

/-- Python truthiness of `first_passthrough_exp`, an optional expression
index: `None` and index `0` are both falsy. -/
def truthyIdx : Option Nat → Bool
  | Option.none => false
  | some i => i != 0

/-- The whitelist chaining loop of `pbr_nodetree_material`
(`export_material.py` lines 244-255): push one `Passthrough` function
call per whitelisted texture, wire each previous passthrough's input `"1"`
to the next, remember the first (by Python truthiness), and feed the
texture into input `"0"`.  Returns the final list and
`first_passthrough_exp`. -/
def passthrough_chain : List Ref → ExpList → Option Nat → Option Nat →
    ExpList × Option Nat
  | [], el, first, _ => (el, first)
  | tex :: rest, el, first, last =>
      let pt : Node :=
        { tag := "FunctionCall", attrs := [("Function", AttrVal.str MAT_FUNC_PASSTHROUGH)] }
      let (passthrough_exp, el) := exp_list_push el pt
      let el :=
        match last with
        | some l => modifyAt el l (fun n => push_exp_input n "1" (some ⟨passthrough_exp, 0⟩))
        | Option.none => el
      let first := if truthyIdx first then first else some passthrough_exp
      let el := modifyAt el passthrough_exp (fun n => push_exp_input n "0" (some tex))
      passthrough_chain rest el first (some passthrough_exp)

/-- The whitelist post-pass of `pbr_nodetree_material`
(`export_material.py` lines 240-262): build the passthrough chain; when a
first passthrough exists, reroute `expressions["BaseColor"]` through a
final `Passthrough` call.  The subscript raises `KeyError` when the
aggregate has no `"BaseColor"` key, modelled as `Except.error`. -/
def pbr_apply_passthrough (whitelisted_textures : List Ref)
    (expressions : Aggregate) (el : ExpList) :
    Except String (Aggregate × ExpList) :=
  if truthyIdx (passthrough_chain whitelisted_textures el Option.none Option.none).2 then
    match expressions.lookup "BaseColor" with
    | Option.none => .error "KeyError: BaseColor"
    | some prev_base_color =>
        let el2 := (passthrough_chain whitelisted_textures el Option.none Option.none).1
        let first_passthrough_exp :=
          (passthrough_chain whitelisted_textures el Option.none Option.none).2
        let main_passthrough : Node :=
          { tag := "FunctionCall", attrs := [("Function", AttrVal.str MAT_FUNC_PASSTHROUGH)] }
        let main_passthrough := push_exp_input main_passthrough "0" prev_base_color
        let main_passthrough :=
          push_exp_input main_passthrough "1" (some ⟨first_passthrough_exp.getD 0, 0⟩)
        .ok (setKey expressions "BaseColor"
              (some ⟨(exp_list_push el2 main_passthrough).1, 0⟩),
             (exp_list_push el2 main_passthrough).2)
  else
    .ok (expressions, (passthrough_chain whitelisted_textures el Option.none Option.none).1)

/-!  Theorems.  First some shared lemmas about the association-list and
expression-list primitives, then one theorem (plus counterexample/witness
where applicable) per specification claim. -/

theorem lookup_cons {κ α : Type} [DecidableEq κ] (a k : κ) (v : α)
    (t : List (κ × α)) :
    ((k, v) :: t).lookup a = if a = k then some v else t.lookup a := by
  by_cases h : a = k
  · subst h; simp [List.lookup]
  · simp [List.lookup, beq_false_of_ne h, h]

theorem lookup_cons_self {κ α : Type} [DecidableEq κ] (k : κ) (v : α)
    (t : List (κ × α)) : ((k, v) :: t).lookup k = some v := by
  rw [lookup_cons, if_pos rfl]

theorem lookup_cons_ne {κ α : Type} [DecidableEq κ] {a k : κ} (h : a ≠ k)
    (v : α) (t : List (κ × α)) : ((k, v) :: t).lookup a = t.lookup a := by
  rw [lookup_cons, if_neg h]

theorem lookup_isSome_iff {κ α : Type} [DecidableEq κ] (l : List (κ × α))
    (k : κ) : (l.lookup k).isSome ↔ k ∈ l.map Prod.fst := by
  induction l with
  | nil => simp [List.lookup]
  | cons p t ih =>
      obtain ⟨pk, pv⟩ := p
      rw [lookup_cons]
      by_cases h : k = pk
      · subst h; simp
      · rw [if_neg h]; simp [ih, h]

theorem lookup_eq_none_iff {κ α : Type} [DecidableEq κ] (l : List (κ × α))
    (k : κ) : l.lookup k = none ↔ k ∉ l.map Prod.fst := by
  rw [← lookup_isSome_iff]
  cases l.lookup k <;> simp

theorem lookup_mem {κ α : Type} [DecidableEq κ] {l : List (κ × α)} {k : κ}
    {v : α} (h : l.lookup k = some v) : (k, v) ∈ l := by
  induction l with
  | nil => simp [List.lookup] at h
  | cons p t ih =>
      obtain ⟨pk, pv⟩ := p
      rw [lookup_cons] at h
      by_cases hk : k = pk
      · rw [if_pos hk] at h
        subst hk
        cases h
        exact List.mem_cons_self _ _
      · rw [if_neg hk] at h
        exact List.mem_cons_of_mem _ (ih h)

theorem mem_lookup_of_nodup {κ α : Type} [DecidableEq κ] {l : List (κ × α)}
    {k : κ} {v : α} (hnd : (l.map Prod.fst).Nodup) (h : (k, v) ∈ l) :
    l.lookup k = some v := by
  induction l with
  | nil => simp at h
  | cons p t ih =>
      obtain ⟨pk, pv⟩ := p
      simp only [List.map_cons, List.nodup_cons] at hnd
      rcases List.mem_cons.mp h with h1 | h1
      · cases h1
        exact lookup_cons_self k v t
      · have hk : k ≠ pk := by
          intro he
          subst he
          exact hnd.1 (List.mem_map_of_mem Prod.fst h1)
        rw [lookup_cons_ne hk]
        exact ih hnd.2 h1

theorem lookup_map_replace_self {κ α : Type} [DecidableEq κ] (k : κ) (v : α) :
    ∀ (l : List (κ × α)), (l.lookup k).isSome →
      (l.map (fun p => if p.1 = k then (k, v) else p)).lookup k = some v := by
  intro l
  induction l with
  | nil => intro h; simp [List.lookup] at h
  | cons p t ih =>
      obtain ⟨pk, pv⟩ := p
      intro h
      by_cases hp : pk = k
      · subst hp
        simp only [List.map_cons, if_pos rfl]
        exact lookup_cons_self _ _ _
      · have hk : k ≠ pk := fun he => hp he.symm
        rw [lookup_cons_ne hk] at h
        simp only [List.map_cons, if_neg hp]
        rw [lookup_cons_ne hk]
        exact ih h

theorem lookup_map_replace_ne {κ α : Type} [DecidableEq κ] (k : κ) (v : α)
    {a : κ} (ha : a ≠ k) : ∀ (l : List (κ × α)),
      (l.map (fun p => if p.1 = k then (k, v) else p)).lookup a = l.lookup a := by
  intro l
  induction l with
  | nil => rfl
  | cons p t ih =>
      obtain ⟨pk, pv⟩ := p
      by_cases hp : pk = k
      · subst hp
        rw [List.map_cons, show (if (pk, pv).1 = pk then (pk, v) else (pk, pv)) = (pk, v)
              from if_pos rfl,
            lookup_cons_ne ha, lookup_cons_ne ha]
        exact ih
      · simp only [List.map_cons, if_neg hp]
        by_cases hap : a = pk
        · subst hap
          rw [lookup_cons_self, lookup_cons_self]
        · rw [lookup_cons_ne hap, lookup_cons_ne hap]
          exact ih

theorem lookup_append_last {κ α : Type} [DecidableEq κ] (k : κ) (v : α) :
    ∀ (l : List (κ × α)), l.lookup k = none → (l ++ [(k, v)]).lookup k = some v := by
  intro l
  induction l with
  | nil => intro _; exact lookup_cons_self _ _ _
  | cons p t ih =>
      obtain ⟨pk, pv⟩ := p
      intro h
      by_cases hk : k = pk
      · subst hk
        rw [lookup_cons_self] at h
        cases h
      · rw [lookup_cons_ne hk] at h
        rw [List.cons_append, lookup_cons_ne hk]
        exact ih h

theorem lookup_append_last_ne {κ α : Type} [DecidableEq κ] (k : κ) (v : α)
    {a : κ} (ha : a ≠ k) : ∀ (l : List (κ × α)),
      (l ++ [(k, v)]).lookup a = l.lookup a := by
  intro l
  induction l with
  | nil => simp [List.lookup, beq_false_of_ne ha]
  | cons p t ih =>
      obtain ⟨pk, pv⟩ := p
      by_cases hap : a = pk
      · subst hap
        rw [List.cons_append, lookup_cons_self, lookup_cons_self]
      · rw [List.cons_append, lookup_cons_ne hap, lookup_cons_ne hap]
        exact ih

theorem lookup_setKey_self {κ α : Type} [DecidableEq κ] (l : List (κ × α))
    (k : κ) (v : α) : (setKey l k v).lookup k = some v := by
  unfold setKey
  by_cases h : (l.lookup k).isSome
  · rw [if_pos h]
    exact lookup_map_replace_self k v l h
  · rw [if_neg h]
    rw [Option.not_isSome_iff_eq_none] at h
    exact lookup_append_last k v l h

theorem lookup_setKey_ne {κ α : Type} [DecidableEq κ] (l : List (κ × α))
    {a k : κ} (h : a ≠ k) (v : α) : (setKey l k v).lookup a = l.lookup a := by
  unfold setKey
  by_cases hs : (l.lookup k).isSome
  · rw [if_pos hs]
    exact lookup_map_replace_ne k v h l
  · rw [if_neg hs]
    exact lookup_append_last_ne k v h l

theorem keys_setKey_of_none {κ α : Type} [DecidableEq κ] (l : List (κ × α))
    (k : κ) (v : α) (h : l.lookup k = none) :
    (setKey l k v).map Prod.fst = l.map Prod.fst ++ [k] := by
  unfold setKey
  rw [h]
  simp

theorem keys_setKey_of_isSome {κ α : Type} [DecidableEq κ] (l : List (κ × α))
    (k : κ) (v : α) (h : (l.lookup k).isSome) :
    (setKey l k v).map Prod.fst = l.map Prod.fst := by
  unfold setKey
  rw [if_pos h, List.map_map]
  congr 1
  funext p
  by_cases hp : p.1 = k
  · simp [hp]
  · simp [hp]

theorem setKey_setKey_same {κ α : Type} [DecidableEq κ] (l : List (κ × α))
    (k : κ) (v : α) : setKey (setKey l k v) k v = setKey l k v := by
  have hs : ((setKey l k v).lookup k).isSome := by
    rw [lookup_setKey_self]; rfl
  show (if ((setKey l k v).lookup k).isSome then
          (setKey l k v).map (fun p => if p.1 = k then (k, v) else p)
        else (setKey l k v) ++ [(k, v)]) = setKey l k v
  rw [if_pos hs]
  have hfix : ∀ (m : List (κ × α)),
      (∀ p ∈ m, p.1 = k → p = (k, v)) →
      m.map (fun p => if p.1 = k then (k, v) else p) = m := by
    intro m hm
    induction m with
    | nil => rfl
    | cons p t ih =>
        simp only [List.map_cons]
        rw [ih (fun q hq => hm q (List.mem_cons_of_mem _ hq))]
        by_cases hp : p.1 = k
        · rw [if_pos hp, hm p (List.mem_cons_self _ _) hp]
        · rw [if_neg hp]
  apply hfix
  intro p hp hpk
  unfold setKey at hp
  by_cases h0 : (l.lookup k).isSome
  · rw [if_pos h0] at hp
    rcases List.mem_map.mp hp with ⟨q, _, hq⟩
    by_cases hqk : q.1 = k
    · rw [if_pos hqk] at hq
      exact hq.symm
    · rw [if_neg hqk] at hq
      exact absurd (hq ▸ hpk) hqk
  · rw [if_neg h0] at hp
    rcases List.mem_append.mp hp with h1 | h1
    · rw [Option.not_isSome_iff_eq_none, lookup_eq_none_iff] at h0
      exact absurd (hpk ▸ List.mem_map_of_mem Prod.fst h1) h0
    · simpa using h1

theorem getElem?_append_left_of_some {el t : ExpList} {i : Nat}
    {n : Node} (h : el[i]? = some n) : (el ++ t)[i]? = some n := by
  have hlt : i < el.length := by
    by_contra hge
    rw [List.getElem?_eq_none (Nat.le_of_not_lt hge)] at h
    cases h
  rw [List.getElem?_append, if_pos hlt]
  exact h

theorem getElem?_concat_self (el : ExpList) (n : Node) :
    (el ++ [n])[el.length]? = some n := by
  rw [List.getElem?_append_right (Nat.le_refl _)]
  simp

theorem run_curves_spec (curves : List (ℚ → ℚ × ℚ × ℚ × ℚ)) :
    ∀ (st : CurveAtlasState),
    (run_material_curves curves st).1
      = List.range' st.material_curves_count curves.length
  ∧ (run_material_curves curves st).2.material_curves_count
      = st.material_curves_count + curves.length
  ∧ (∀ r : Int,
      (∀ i : Nat, i < curves.length →
        r ≠ (DATASMITH_TEXTURE_SIZE : Int) - (st.material_curves_count + i) - 1) →
      (run_material_curves curves st).2.material_curves.lookup r
        = st.material_curves.lookup r)
  ∧ (∀ (k : Nat) (c : ℚ → ℚ × ℚ × ℚ × ℚ), curves[k]? = some c →
      (run_material_curves curves st).2.material_curves.lookup
          ((DATASMITH_TEXTURE_SIZE : Int) - (st.material_curves_count + k) - 1)
        = some ((List.range DATASMITH_TEXTURE_SIZE).map
            (fun idx => c ((idx : ℚ) / (DATASMITH_TEXTURE_SIZE : ℚ))))) := by
  induction curves with
  | nil =>
      intro st
      refine ⟨rfl, rfl, fun r _ => rfl, fun k c hk => ?_⟩
      simp at hk
  | cons c rest ih =>
      intro st
      have hunfold : run_material_curves (c :: rest) st
          = ((add_material_curve c st).1 ::
              (run_material_curves rest (add_material_curve c st).2).1,
             (run_material_curves rest (add_material_curve c st).2).2) := rfl
      have hst1_count : (add_material_curve c st).2.material_curves_count
          = st.material_curves_count + 1 := rfl
      have hst1_atlas : (add_material_curve c st).2.material_curves
          = setKey st.material_curves
              ((DATASMITH_TEXTURE_SIZE : Int) - st.material_curves_count - 1)
              ((List.range DATASMITH_TEXTURE_SIZE).map
                (fun idx => c ((idx : ℚ) / (DATASMITH_TEXTURE_SIZE : ℚ)))) := rfl
      obtain ⟨ih1, ih2, ih3, ih4⟩ := ih (add_material_curve c st).2
      refine ⟨?_, ?_, ?_, ?_⟩
      · rw [hunfold]
        show (add_material_curve c st).1 :: _ = _
        rw [ih1, hst1_count, List.length_cons, List.range'_succ]
        rfl
      · rw [hunfold]
        show (run_material_curves rest
          (add_material_curve c st).2).2.material_curves_count = _
        rw [ih2, hst1_count, List.length_cons]
        omega
      · intro r hr
        rw [hunfold]
        show (run_material_curves rest
          (add_material_curve c st).2).2.material_curves.lookup r = _
        have hfresh : ∀ i : Nat, i < rest.length →
            r ≠ (DATASMITH_TEXTURE_SIZE : Int)
              - (((add_material_curve c st).2.material_curves_count : Int) + (i : Int)) - 1 := by
          intro i hi
          rw [hst1_count]
          have harg2 : (DATASMITH_TEXTURE_SIZE : Int)
              - (((st.material_curves_count + 1 : Nat) : Int) + (i : Int)) - 1
              = (DATASMITH_TEXTURE_SIZE : Int)
                - ((st.material_curves_count : Int) + ((i + 1 : Nat) : Int)) - 1 := by
            push_cast
            ring
          rw [harg2]
          exact hr (i + 1) (by rw [List.length_cons]; omega)
        have hne : r ≠ (DATASMITH_TEXTURE_SIZE : Int)
            - (st.material_curves_count : Int) - 1 := by
          have h0 := hr 0 (by rw [List.length_cons]; omega)
          simpa using h0
        rw [ih3 r hfresh, hst1_atlas, lookup_setKey_ne _ hne]
      · intro k cc hk
        rw [hunfold]
        show (run_material_curves rest
          (add_material_curve c st).2).2.material_curves.lookup _ = _
        cases k with
        | zero =>
            obtain rfl : c = cc := by simpa using hk
            have hfresh : ∀ i : Nat, i < rest.length →
                (DATASMITH_TEXTURE_SIZE : Int)
                    - ((st.material_curves_count : Int) + ((0 : Nat) : Int)) - 1
                  ≠ (DATASMITH_TEXTURE_SIZE : Int)
                    - (((add_material_curve c st).2.material_curves_count : Int)
                        + (i : Int)) - 1 := by
              intro i _
              rw [hst1_count]
              intro he
              simp only [Nat.cast_zero, add_zero] at he
              omega
            rw [ih3 _ hfresh, hst1_atlas]
            simpa using lookup_setKey_self st.material_curves _ _
        | succ k =>
            have hk2 : rest[k]? = some cc := by
              simpa using hk
            have hres := ih4 k cc hk2
            rw [hst1_count] at hres
            have harg : (DATASMITH_TEXTURE_SIZE : Int)
                - ((st.material_curves_count : Int) + ((k + 1 : Nat) : Int)) - 1
                = (DATASMITH_TEXTURE_SIZE : Int)
                  - (((st.material_curves_count + 1 : Nat) : Int) + (k : Int)) - 1 := by
              push_cast
              ring
            rw [harg]
            exact hres

/-- Claim C7: for every sequence of N curve bake requests in one export run
(the run resets `material_curves_count` to 0 and clears the atlas), the
k-th claimed curve is written into atlas row
`DATASMITH_TEXTURE_SIZE - k - 1` (rows size-1 .. size-N, top-row-first in
first-claimed order), the claimed index returned is k, and the claim
counter increases by one at every request, hence only ever increases
across materials within the run. -/
theorem c7_curve_row_assignment (curves : List (ℚ → ℚ × ℚ × ℚ × ℚ)) :
    (run_material_curves curves ⟨0, []⟩).1 = List.range curves.length
  ∧ (run_material_curves curves ⟨0, []⟩).2.material_curves_count = curves.length
  ∧ (∀ (k : Nat) (c : ℚ → ℚ × ℚ × ℚ × ℚ), curves[k]? = some c →
      (run_material_curves curves ⟨0, []⟩).2.material_curves.lookup
          ((DATASMITH_TEXTURE_SIZE : Int) - k - 1)
        = some ((List.range DATASMITH_TEXTURE_SIZE).map
            (fun idx => c ((idx : ℚ) / (DATASMITH_TEXTURE_SIZE : ℚ)))))
  ∧ (∀ (c : ℚ → ℚ × ℚ × ℚ × ℚ) (st : CurveAtlasState),
      (add_material_curve c st).2.material_curves_count
        = st.material_curves_count + 1) := by
  obtain ⟨h1, h2, _, h4⟩ := run_curves_spec curves ⟨0, []⟩
  refine ⟨?_, ?_, ?_, fun c st => rfl⟩
  · rw [h1]
    show List.range' 0 curves.length = List.range curves.length
    rw [List.range_eq_range']
  · rw [h2]
    show (0 : Nat) + curves.length = curves.length
    omega
  · intro k c hk
    have hres := h4 k c hk
    have harg : (DATASMITH_TEXTURE_SIZE : Int)
        - (((⟨0, []⟩ : CurveAtlasState).material_curves_count : Int) + (k : Int)) - 1
        = (DATASMITH_TEXTURE_SIZE : Int) - (k : Int) - 1 := by
      show (DATASMITH_TEXTURE_SIZE : Int) - (((0 : Nat) : Int) + (k : Int)) - 1 = _
      push_cast
      ring
    rw [harg] at hres
    exact hres

/-- Witness for C7: a single constant curve claims index 0 and lands in the
top row 1023. -/
theorem c7_curve_row_assignment_witness :
    (run_material_curves [fun _ => (0, 0, 0, 0)] ⟨0, []⟩).2.material_curves.lookup
        ((DATASMITH_TEXTURE_SIZE : Int) - 0 - 1)
      = some ((List.range DATASMITH_TEXTURE_SIZE).map
          (fun idx => (fun _ : ℚ => ((0 : ℚ), (0 : ℚ), (0 : ℚ), (0 : ℚ)))
            ((idx : ℚ) / (DATASMITH_TEXTURE_SIZE : ℚ))))
  ∧ (run_material_curves [fun _ => (0, 0, 0, 0)] ⟨0, []⟩).1 = List.range 1 :=
  ⟨(c7_curve_row_assignment [fun _ => (0, 0, 0, 0)]).2.2.1 0
      (fun _ : ℚ => ((0 : ℚ), (0 : ℚ), (0 : ℚ), (0 : ℚ))) rfl,
   (c7_curve_row_assignment [fun _ => (0, 0, 0, 0)]).1⟩

/-- Claim C4, as stated, is false on the code: `exp_group` restores the
previous group scope and caches only on normal return; when resolving the
inner graph raises, the bare restore assignments are skipped.  Here a
failing inner resolution leaves the caller with the fresh empty caches
and the inner scope instead of the saved ones. -/
theorem c4_counterexample :
    (exp_group_run (fun st => ([], st))
        (fun st => (.error "AssertionError", st))
        { reverse_expressions := [(⟨1, SockType.RGBA, 1, "Color"⟩, ExpResult.ref ⟨0, 0⟩)],
          cached_nodes := [(1, (0, ["Color"]))],
          context_stack := [],
          group_context := [("Input_3", (ExpResult.ref ⟨0, 0⟩, true))],
          exp_list := [scalarNode 1] }).1 = .error "AssertionError"
  ∧ (exp_group_run (fun st => ([], st))
        (fun st => (.error "AssertionError", st))
        { reverse_expressions := [(⟨1, SockType.RGBA, 1, "Color"⟩, ExpResult.ref ⟨0, 0⟩)],
          cached_nodes := [(1, (0, ["Color"]))],
          context_stack := [],
          group_context := [("Input_3", (ExpResult.ref ⟨0, 0⟩, true))],
          exp_list := [scalarNode 1] }).2.reverse_expressions = []
  ∧ (exp_group_run (fun st => ([], st))
        (fun st => (.error "AssertionError", st))
        { reverse_expressions := [(⟨1, SockType.RGBA, 1, "Color"⟩, ExpResult.ref ⟨0, 0⟩)],
          cached_nodes := [(1, (0, ["Color"]))],
          context_stack := [],
          group_context := [("Input_3", (ExpResult.ref ⟨0, 0⟩, true))],
          exp_list := [scalarNode 1] }).2.cached_nodes = []
  ∧ [(⟨1, SockType.RGBA, 1, "Color"⟩, ExpResult.ref ⟨0, 0⟩)]
      ≠ ([] : List (Socket × ExpResult)) :=
  ⟨rfl, rfl, rfl, by decide⟩

/-- Claim C4 (amended): when the inner resolution returns normally
(including when `inner` is itself a nested `exp_group_run`, since the
statement holds for an arbitrary `inner`), the previous group scope, node
cache and reverse-expression cache are restored exactly; on an inner
error the restoration is skipped and the error propagates. -/
theorem c4_exp_group_restores_on_ok
    (capture : ResolveState → List (String × (ExpResult × Bool)) × ResolveState)
    (inner : ResolveState → Except String ExpResult × ResolveState)
    (st st' : ResolveState) (r : ExpResult)
    (h : exp_group_run capture inner st = (.ok r, st')) :
    st'.group_context = st.group_context
  ∧ st'.cached_nodes = st.cached_nodes
  ∧ st'.reverse_expressions = st.reverse_expressions := by
  unfold exp_group_run at h
  rcases hout : inner { (capture st).2 with group_context := (capture st).1,
                                            reverse_expressions := [],
                                            cached_nodes := [] } with ⟨res, st2⟩
  rw [hout] at h
  cases res with
  | ok v =>
      simp only [exp_group_finish] at h
      injection h with h1 h2
      subst h2
      exact ⟨rfl, rfl, rfl⟩
  | error e =>
      simp only [exp_group_finish] at h
      injection h with h1 h2
      cases h1

/-- Witness for C4's amended theorem: a successful inner resolution
restores the caller's scope and caches exactly. -/
theorem c4_exp_group_restores_on_ok_witness :
    (exp_group_run (fun st => ([("Input_3", (ExpResult.ref ⟨0, 0⟩, true))], st))
        (fun st => (.ok (ExpResult.ref ⟨0, 0⟩), st))
        { reverse_expressions := [(⟨1, SockType.RGBA, 1, "Color"⟩, ExpResult.ref ⟨0, 0⟩)],
          cached_nodes := [(1, (0, ["Color"]))],
          context_stack := [],
          group_context := [],
          exp_list := [scalarNode 1] }).2.group_context
      = ({ reverse_expressions := [(⟨1, SockType.RGBA, 1, "Color"⟩, ExpResult.ref ⟨0, 0⟩)],
           cached_nodes := [(1, (0, ["Color"]))],
           context_stack := [],
           group_context := [],
           exp_list := [scalarNode 1] } : ResolveState).group_context
  ∧ (exp_group_run (fun st => ([("Input_3", (ExpResult.ref ⟨0, 0⟩, true))], st))
        (fun st => (.ok (ExpResult.ref ⟨0, 0⟩), st))
        { reverse_expressions := [(⟨1, SockType.RGBA, 1, "Color"⟩, ExpResult.ref ⟨0, 0⟩)],
          cached_nodes := [(1, (0, ["Color"]))],
          context_stack := [],
          group_context := [],
          exp_list := [scalarNode 1] }).2.cached_nodes
      = ({ reverse_expressions := [(⟨1, SockType.RGBA, 1, "Color"⟩, ExpResult.ref ⟨0, 0⟩)],
           cached_nodes := [(1, (0, ["Color"]))],
           context_stack := [],
           group_context := [],
           exp_list := [scalarNode 1] } : ResolveState).cached_nodes
  ∧ (exp_group_run (fun st => ([("Input_3", (ExpResult.ref ⟨0, 0⟩, true))], st))
        (fun st => (.ok (ExpResult.ref ⟨0, 0⟩), st))
        { reverse_expressions := [(⟨1, SockType.RGBA, 1, "Color"⟩, ExpResult.ref ⟨0, 0⟩)],
          cached_nodes := [(1, (0, ["Color"]))],
          context_stack := [],
          group_context := [],
          exp_list := [scalarNode 1] }).2.reverse_expressions
      = ({ reverse_expressions := [(⟨1, SockType.RGBA, 1, "Color"⟩, ExpResult.ref ⟨0, 0⟩)],
           cached_nodes := [(1, (0, ["Color"]))],
           context_stack := [],
           group_context := [],
           exp_list := [scalarNode 1] } : ResolveState).reverse_expressions :=
  c4_exp_group_restores_on_ok
    (fun st => ([("Input_3", (ExpResult.ref ⟨0, 0⟩, true))], st))
    (fun st => (.ok (ExpResult.ref ⟨0, 0⟩), st))
    { reverse_expressions := [(⟨1, SockType.RGBA, 1, "Color"⟩, ExpResult.ref ⟨0, 0⟩)],
      cached_nodes := [(1, (0, ["Color"]))],
      context_stack := [],
      group_context := [],
      exp_list := [scalarNode 1] }
    (exp_group_run (fun st => ([("Input_3", (ExpResult.ref ⟨0, 0⟩, true))], st))
        (fun st => (.ok (ExpResult.ref ⟨0, 0⟩), st))
        { reverse_expressions := [(⟨1, SockType.RGBA, 1, "Color"⟩, ExpResult.ref ⟨0, 0⟩)],
          cached_nodes := [(1, (0, ["Color"]))],
          context_stack := [],
          group_context := [],
          exp_list := [scalarNode 1] }).2
    (ExpResult.ref ⟨0, 0⟩)
    rfl

/-- Claim C5, as stated, is false on the code: `collect_all_materials`
compiles the materials in a bare list comprehension with no per-material
exception handling, so a `StructuralAssertion` (Python `AssertionError`)
raised for the first material aborts the whole run; the second material,
which compiles fine on its own, produces no record. -/
theorem c5_counterexample :
    collect_all_materials_run
        (fun n : Nat => if n = 0 then .error "AssertionError" else .ok n) [0, 1]
      = .error "AssertionError"
  ∧ (fun n : Nat =>
        if n = 0 then (.error "AssertionError" : Except String Nat) else .ok n) 1
      = .ok 1 :=
  ⟨rfl, rfl⟩

/-- Claim C5 (amended): a `StructuralAssertion` failure while compiling any
one material aborts the entire material collection of the run: the run
returns an error and no list of sibling material records is produced. -/
theorem c5_assertion_aborts_run {μ ρ : Type} (f : μ → Except String ρ)
    (mats : List μ) (m : μ) (e : String) (hm : m ∈ mats)
    (hf : f m = .error e) :
    ∃ e', collect_all_materials_run f mats = .error e' := by
  induction mats with
  | nil => cases hm
  | cons a t ih =>
      have hunfold : collect_all_materials_run f (a :: t)
          = match f a with
            | .ok r =>
                (match collect_all_materials_run f t with
                 | .ok rs => .ok (r :: rs)
                 | .error e => .error e)
            | .error e => .error e := rfl
      rcases List.mem_cons.mp hm with h1 | h1
      · subst h1
        exact ⟨e, by rw [hunfold, hf]⟩
      · rcases ih h1 with ⟨e', he'⟩
        cases hfa : f a with
        | error e2 => exact ⟨e2, by rw [hunfold, hfa]⟩
        | ok v => exact ⟨e', by rw [hunfold, hfa, he']⟩

theorem passthrough_chain_keeps_first (wl : List Ref) :
    ∀ (el : ExpList) (first last : Option Nat),
    truthyIdx first = true →
    (passthrough_chain wl el first last).2 = first := by
  induction wl with
  | nil => intro el first last _; rfl
  | cons tex rest ih =>
      intro el first last h
      simp only [passthrough_chain]
      rw [if_pos h]
      exact ih _ _ _ h

theorem passthrough_chain_first_of_none (wl : List Ref) (el : ExpList)
    (last : Option Nat) (hwl : wl ≠ []) (hel : el ≠ []) :
    truthyIdx ((passthrough_chain wl el Option.none last).2) = true := by
  cases wl with
  | nil => cases hwl rfl
  | cons tex rest =>
      simp only [passthrough_chain, exp_list_push]
      have htr : truthyIdx (some el.length) = true := by
        have hlen : el.length ≠ 0 := fun h => hel (List.eq_nil_of_length_eq_zero h)
        simp [truthyIdx, hlen]
      rw [if_neg (by simp [truthyIdx]), passthrough_chain_keeps_first rest _ _ _ htr]
      exact htr

/-- Claim C10: when at least one texture has been whitelisted under Bump
context (the expression list is then necessarily non-empty, since the
whitelisted texture expression itself was already appended) but the
resolved root shader aggregate has no `"BaseColor"` channel, the
passthrough post-pass of `pbr_nodetree_material` evaluates
`expressions["BaseColor"]` and raises an uncaught `KeyError`, so that
material's export fails. -/
theorem c10_missing_basecolor_keyerror (whitelisted_textures : List Ref)
    (expressions : Aggregate) (el : ExpList)
    (hwl : whitelisted_textures ≠ []) (hel : el ≠ [])
    (hbc : expressions.lookup "BaseColor" = none) :
    pbr_apply_passthrough whitelisted_textures expressions el
      = .error "KeyError: BaseColor" := by
  have htr := passthrough_chain_first_of_none whitelisted_textures el
    Option.none hwl hel
  unfold pbr_apply_passthrough
  rw [if_pos htr, hbc]

/-- Witness for C10: an emission-only aggregate with a whitelisted texture
reaches the `KeyError` branch. -/
theorem c10_missing_basecolor_keyerror_witness :
    ([⟨0, 0⟩] : List Ref) ≠ []
  ∧ ([scalarNode 0] : ExpList) ≠ []
  ∧ ([("EmissiveColor", some (⟨0, 0⟩ : Ref))] : Aggregate).lookup "BaseColor" = none
  ∧ pbr_apply_passthrough [⟨0, 0⟩] [("EmissiveColor", some ⟨0, 0⟩)] [scalarNode 0]
      = .error "KeyError: BaseColor" :=
  ⟨by decide, by decide, rfl,
   c10_missing_basecolor_keyerror [⟨0, 0⟩] [("EmissiveColor", some ⟨0, 0⟩)]
     [scalarNode 0] (by decide) (by decide) rfl⟩

/-- Claim C3, as stated, is false on the code: a Scalar request from a
Color (RGBA) producer is coerced through a `FunctionCall` to the
`RGB_To_BW` material function, not through a dot-product against
`(1/3, 1/3, 1/3)`; no `DotProduct` expression is emitted on that path
(the dot-product coercion exists only for Vector producers). -/
theorem c3_counterexample :
    (coerce_expression SockType.VALUE SockType.RGBA (.ref ⟨0, 0⟩) [colorNode 1 0 0 1]).2
      = [colorNode 1 0 0 1,
         { tag := "FunctionCall",
           attrs := [("Function", AttrVal.str MAT_FUNC_RGB_TO_BW)],
           inputs := [exp_input "0" (some ⟨0, 0⟩)] }]
  ∧ ((coerce_expression SockType.VALUE SockType.RGBA (.ref ⟨0, 0⟩)
        [colorNode 1 0 0 1]).2.all (fun n => n.tag != "DotProduct")) = true :=
  ⟨rfl, rfl⟩

/-- Claim C3 (amended): the post-resolution coercions are: Scalar from a
Color producer via an `RGB_To_BW` function call; Scalar from a Vector
producer via a dot product against the constant `(0.333333, 0.333333,
0.333333)`; Vector from Color via a component mask keeping R, G, B;
Color from Vector via appending a constant alpha 1; Color from Scalar by
broadcasting the scalar to 3 channels through a `CombineRGB` function
call; Shader from any non-Shader producer by wrapping the value as the
aggregate with `BaseColor` a black constant and `EmissiveColor` the
value; equal requester/producer types are returned unchanged. -/
theorem c3_coercion_spec (r : Ref) (el : ExpList) :
    coerce_expression SockType.VALUE SockType.RGBA (.ref r) el
      = (.ref ⟨el.length, 0⟩,
         el ++ [{ tag := "FunctionCall",
                  attrs := [("Function", AttrVal.str MAT_FUNC_RGB_TO_BW)],
                  inputs := [exp_input "0" (some r)] }])
  ∧ coerce_expression SockType.VALUE SockType.VECTOR (.ref r) el
      = (.ref ⟨el.length + 1, 0⟩,
         el ++ [colorNode (333333/1000000) (333333/1000000) (333333/1000000) 1,
                { tag := "DotProduct",
                  inputs := [exp_input "0" (some r),
                             exp_input "1" (some ⟨el.length, 0⟩)] }])
  ∧ coerce_expression SockType.VECTOR SockType.RGBA (.ref r) el
      = (.ref ⟨el.length, 0⟩,
         el ++ [{ tag := "ComponentMask",
                  attrs := [("R", AttrVal.str "True"), ("G", AttrVal.str "True"),
                            ("B", AttrVal.str "True")],
                  inputs := [exp_input "0" (some r)] }])
  ∧ coerce_expression SockType.RGBA SockType.VECTOR (.ref r) el
      = (.ref ⟨el.length + 1, 0⟩,
         el ++ [scalarNode 1,
                { tag := "AppendVector",
                  inputs := [exp_input "0" (some r),
                             exp_input "1" (some ⟨el.length, 0⟩)] }])
  ∧ coerce_expression SockType.RGBA SockType.VALUE (.ref r) el
      = (.ref ⟨el.length, 0⟩,
         el ++ [{ tag := "FunctionCall",
                  attrs := [("Function", AttrVal.str MAT_FUNC_COMBINE_RGB)],
                  inputs := [exp_input "0" (some r), exp_input "1" (some r),
                             exp_input "2" (some r)] }])
  ∧ (∀ stype, stype ≠ SockType.SHADER →
      coerce_expression SockType.SHADER stype (.ref r) el
        = (.shader [("BaseColor", some ⟨el.length + 2, 0⟩),
                    ("EmissiveColor", some r)],
           el ++ [colorNode 0 0 0 1, scalarNode 1,
                  { tag := "AppendVector",
                    inputs := [exp_input "0" (some ⟨el.length, 0⟩),
                               exp_input "1" (some ⟨el.length + 1, 0⟩)] }]))
  ∧ (∀ t, coerce_expression t t (.ref r) el = (.ref r, el)) := by
  refine ⟨?_, ?_, ?_, ?_, ?_, ?_, ?_⟩
  · simp [coerce_expression, exp_list_push, push_exp_input, ExpResult.toRef]
  · simp [coerce_expression, exp_list_push, exp_vector, push_exp_input,
      ExpResult.toRef, exp_input, colorNode]
  · simp [coerce_expression, exp_list_push, push_exp_input, ExpResult.toRef]
  · simp [coerce_expression, exp_list_push, exp_scalar, push_exp_input,
      ExpResult.toRef, exp_input, scalarNode]
  · simp [coerce_expression, exp_list_push, push_exp_input, ExpResult.toRef]
  · intro stype hst
    cases stype with
    | VALUE =>
        simp [coerce_expression, exp_list_push, exp_color, exp_scalar,
          push_exp_input, ExpResult.toRef, exp_input, colorNode, scalarNode]
    | RGBA =>
        simp [coerce_expression, exp_list_push, exp_color, exp_scalar,
          push_exp_input, ExpResult.toRef, exp_input, colorNode, scalarNode]
    | VECTOR =>
        simp [coerce_expression, exp_list_push, exp_color, exp_scalar,
          push_exp_input, ExpResult.toRef, exp_input, colorNode, scalarNode]
    | SHADER => cases hst rfl
  · intro t
    cases t <;> rfl

/-- Witness for C3's amended theorem (the only hypotheses are inside the
Shader conjunct; discharge them at a concrete producer type). -/
theorem c3_coercion_spec_witness :
    coerce_expression SockType.SHADER SockType.RGBA (.ref ⟨7, 2⟩) [scalarNode 3]
      = (.shader [("BaseColor", some ⟨3, 0⟩), ("EmissiveColor", some ⟨7, 2⟩)],
         [scalarNode 3] ++ [colorNode 0 0 0 1, scalarNode 1,
            { tag := "AppendVector",
              inputs := [exp_input "0" (some ⟨1, 0⟩),
                         exp_input "1" (some ⟨2, 0⟩)] }]) :=
  (c3_coercion_spec ⟨7, 2⟩ [scalarNode 3]).2.2.2.2.2.1 SockType.RGBA (by decide)

theorem coerce_expression_id (t : SockType) (re : ExpResult) (el : ExpList) :
    coerce_expression t t re el = (re, el) := by
  cases t <;> rfl

/-- Claim C8: a disconnected RGBA input resolved while the active context
frame is `NORMAL` has its default remapped channel-wise by `c * 2 - 1` on
R, G and B (alpha kept) before the constant is emitted; the emitted
`Color` constant for default `(r, g, b, a)` is
`(r*2-1, g*2-1, b*2-1, a)`, so `(0.2, 0.2, 0.2, 1.0)` becomes
`(-0.6, -0.6, -0.6, 1.0)`. -/
theorem c8_normal_context_rgba_default
    (translate : Socket → ResolveState → ExpResult × ResolveState)
    (r g b a : ℚ) (st : ResolveState)
    (hctx : get_context st = some MatCtx.NORMAL) :
    get_expression translate
        { ftype := SockType.RGBA, link := Option.none,
          default_value := DefaultVal.rgba r g b a } st
      = (.ref ⟨st.exp_list.length + 2, 0⟩,
         { st with exp_list := st.exp_list ++
            [colorNode (r * 2 - 1) (g * 2 - 1) (b * 2 - 1) a, scalarNode a,
             { tag := "AppendVector",
               inputs := [exp_input "0" (some ⟨st.exp_list.length, 0⟩),
                          exp_input "1" (some ⟨st.exp_list.length + 1, 0⟩)] }] }) := by
  simp [get_expression, resolve_default, hctx, exp_color, exp_scalar,
    exp_list_push, colorNode, scalarNode]

/-- Witness for C8: default `(1/5, 1/5, 1/5, 1)` under `NORMAL` context is
emitted as the `Color` constant `(-3/5, -3/5, -3/5, 1)`. -/
theorem c8_normal_context_rgba_default_witness :
    get_context { context_stack := [MatCtx.NORMAL] } = some MatCtx.NORMAL
  ∧ get_expression (fun _ st => (.none, st))
        { ftype := SockType.RGBA, link := Option.none,
          default_value := DefaultVal.rgba (1/5) (1/5) (1/5) 1 }
        { context_stack := [MatCtx.NORMAL] }
      = (.ref ⟨2, 0⟩,
         { context_stack := [MatCtx.NORMAL],
           exp_list := [colorNode (-3/5) (-3/5) (-3/5) 1, scalarNode 1,
             { tag := "AppendVector",
               inputs := [exp_input "0" (some ⟨0, 0⟩),
                          exp_input "1" (some ⟨1, 0⟩)] }] }) :=
  ⟨rfl,
   by
    have h := c8_normal_context_rgba_default (fun _ st => (.none, st))
      (1/5) (1/5) (1/5) 1 { context_stack := [MatCtx.NORMAL] } rfl
    norm_num at h
    convert h using 4
    all_goals norm_num⟩

/-- Claim C6: within one material compile, resolving a second input that
is connected to the same upstream output socket (same requested type, so
no coercion applies) is served from the `reverse_expressions` memo keyed
by that output socket: it returns the identical expression reference and
leaves the whole state, in particular the expression list, unchanged, so
no duplicate of the producer is appended. -/
theorem c6_memoized_resolution
    (translate : Socket → ResolveState → ExpResult × ResolveState)
    (f1 f2 : Field) (s : Socket) (st : ResolveState)
    (h1 : f1.link = some s) (h2 : f2.link = some s)
    (ht1 : f1.ftype = s.stype) (ht2 : f2.ftype = s.stype) :
    (get_expression translate f2 (get_expression translate f1 st).2).1
      = (get_expression translate f1 st).1
  ∧ (get_expression translate f2 (get_expression translate f1 st).2).2
      = (get_expression translate f1 st).2 := by
  obtain ⟨ft1, l1, d1⟩ := f1
  obtain ⟨ft2, l2, d2⟩ := f2
  replace h1 : l1 = some s := h1
  replace h2 : l2 = some s := h2
  replace ht1 : ft1 = s.stype := ht1
  replace ht2 : ft2 = s.stype := ht2
  subst h1
  subst h2
  subst ht1
  subst ht2
  rcases hre : get_expression_inner translate s st with ⟨re, st1⟩
  have e1 : get_expression translate
      { ftype := s.stype, link := some s, default_value := d1 } st
      = (re, { st1 with
          reverse_expressions := setKey st1.reverse_expressions s re }) := by
    simp only [get_expression, hre]
    cases htruthy : re.isTruthy <;>
      simp [coerce_expression_id, htruthy]
  have hmemo : ({ st1 with
      reverse_expressions := setKey st1.reverse_expressions s re } :
        ResolveState).reverse_expressions.lookup s = some re :=
    lookup_setKey_self st1.reverse_expressions s re
  have e2 : get_expression translate
      { ftype := s.stype, link := some s, default_value := d2 }
      { st1 with reverse_expressions := setKey st1.reverse_expressions s re }
      = (re, { st1 with
          reverse_expressions := setKey st1.reverse_expressions s re }) := by
    simp only [get_expression, get_expression_inner, hmemo]
    cases htruthy : re.isTruthy <;>
      simp [coerce_expression_id, htruthy, setKey_setKey_same]
  rw [e1]
  exact ⟨by rw [e2], by rw [e2]⟩

/-- Witness for C6: two Color inputs linked to the same upstream Color
output; the first resolution emits the producer (here one `Color`
constant via `exp_color`), the second is a memo hit that changes
nothing. -/
theorem c6_memoized_resolution_witness :
    ({ ftype := SockType.RGBA, link := some ⟨5, SockType.RGBA, 2, "Color"⟩,
       default_value := DefaultVal.rgba 0 0 0 1 } : Field).link
      = some ⟨5, SockType.RGBA, 2, "Color"⟩
  ∧ ((get_expression
        (fun _ st =>
          (.ref ⟨(exp_color 1 0 0 1 st.exp_list).1, 0⟩,
           { st with exp_list := (exp_color 1 0 0 1 st.exp_list).2 }))
        { ftype := SockType.RGBA, link := some ⟨5, SockType.RGBA, 2, "Color"⟩,
          default_value := DefaultVal.rgba 0 0 0 1 }
        {}).2.exp_list.countP (fun n => n.tag == "Color")) = 1
  ∧ (get_expression
        (fun _ st =>
          (.ref ⟨(exp_color 1 0 0 1 st.exp_list).1, 0⟩,
           { st with exp_list := (exp_color 1 0 0 1 st.exp_list).2 }))
        { ftype := SockType.RGBA, link := some ⟨5, SockType.RGBA, 2, "Color"⟩,
          default_value := DefaultVal.value 0 }
        (get_expression
          (fun _ st =>
            (.ref ⟨(exp_color 1 0 0 1 st.exp_list).1, 0⟩,
             { st with exp_list := (exp_color 1 0 0 1 st.exp_list).2 }))
          { ftype := SockType.RGBA, link := some ⟨5, SockType.RGBA, 2, "Color"⟩,
            default_value := DefaultVal.rgba 0 0 0 1 }
          {}).2).1
      = (get_expression
          (fun _ st =>
            (.ref ⟨(exp_color 1 0 0 1 st.exp_list).1, 0⟩,
             { st with exp_list := (exp_color 1 0 0 1 st.exp_list).2 }))
          { ftype := SockType.RGBA, link := some ⟨5, SockType.RGBA, 2, "Color"⟩,
            default_value := DefaultVal.rgba 0 0 0 1 }
          {}).1
  ∧ (get_expression
        (fun _ st =>
          (.ref ⟨(exp_color 1 0 0 1 st.exp_list).1, 0⟩,
           { st with exp_list := (exp_color 1 0 0 1 st.exp_list).2 }))
        { ftype := SockType.RGBA, link := some ⟨5, SockType.RGBA, 2, "Color"⟩,
          default_value := DefaultVal.value 0 }
        (get_expression
          (fun _ st =>
            (.ref ⟨(exp_color 1 0 0 1 st.exp_list).1, 0⟩,
             { st with exp_list := (exp_color 1 0 0 1 st.exp_list).2 }))
          { ftype := SockType.RGBA, link := some ⟨5, SockType.RGBA, 2, "Color"⟩,
            default_value := DefaultVal.rgba 0 0 0 1 }
          {}).2).2
      = (get_expression
          (fun _ st =>
            (.ref ⟨(exp_color 1 0 0 1 st.exp_list).1, 0⟩,
             { st with exp_list := (exp_color 1 0 0 1 st.exp_list).2 }))
          { ftype := SockType.RGBA, link := some ⟨5, SockType.RGBA, 2, "Color"⟩,
            default_value := DefaultVal.rgba 0 0 0 1 }
          {}).2 := by
  have h := c6_memoized_resolution
    (fun _ st =>
      (.ref ⟨(exp_color 1 0 0 1 st.exp_list).1, 0⟩,
       { st with exp_list := (exp_color 1 0 0 1 st.exp_list).2 }))
    { ftype := SockType.RGBA, link := some ⟨5, SockType.RGBA, 2, "Color"⟩,
      default_value := DefaultVal.rgba 0 0 0 1 }
    { ftype := SockType.RGBA, link := some ⟨5, SockType.RGBA, 2, "Color"⟩,
      default_value := DefaultVal.value 0 }
    ⟨5, SockType.RGBA, 2, "Color"⟩ {} rfl rfl rfl rfl
  exact ⟨rfl, rfl, h.1, h.2⟩

theorem lookup_append2 {κ α : Type} [DecidableEq κ] (l₁ l₂ : List (κ × α))
    (k : κ) :
    (l₁ ++ l₂).lookup k
      = match l₁.lookup k with
        | some v => some v
        | Option.none => l₂.lookup k := by
  induction l₁ with
  | nil => rfl
  | cons p t ih =>
      obtain ⟨pk, pv⟩ := p
      by_cases h : k = pk
      · subst h
        rw [List.cons_append, lookup_cons_self, lookup_cons_self]
      · rw [List.cons_append, lookup_cons_ne h, lookup_cons_ne h, ih]

theorem exp_principled_base_eq
    (resolve : String → ExpList → Option Ref × ExpList) (el : ExpList) :
    exp_principled_base resolve el
      = ([("BaseColor", (resolve "Base Color" el).1),
          ("Metallic", (resolve "Metallic" (resolve "Base Color" el).2).1),
          ("Roughness",
           (resolve "Roughness" (resolve "Metallic" (resolve "Base Color" el).2).2).1),
          ("Specular",
           (resolve "Specular IOR Level"
             (resolve "Roughness"
               (resolve "Metallic" (resolve "Base Color" el).2).2).2).1)],
         (resolve "Specular IOR Level"
           (resolve "Roughness"
             (resolve "Metallic" (resolve "Base Color" el).2).2).2).2) := by
  rcases h1 : resolve "Base Color" el with ⟨b, el1⟩
  rcases h2 : resolve "Metallic" el1 with ⟨m, el2⟩
  rcases h3 : resolve "Roughness" el2 with ⟨r2, el3⟩
  rcases h4 : resolve "Specular IOR Level" el3 with ⟨s2, el4⟩
  simp only [exp_principled_base, h1, h2, h3, h4]

theorem exp_principled_base_lookup_none
    (resolve : String → ExpList → Option Ref × ExpList) (el : ExpList)
    (k : String) (h1 : k ≠ "BaseColor") (h2 : k ≠ "Metallic")
    (h3 : k ≠ "Roughness") (h4 : k ≠ "Specular") :
    (exp_principled_base resolve el).1.lookup k = none := by
  simp only [exp_principled_base_eq]
  rw [lookup_cons_ne h1, lookup_cons_ne h2, lookup_cons_ne h3, lookup_cons_ne h4]
  rfl

theorem exp_principled_pre_eq (node : PrincipledNode)
    (resolve : String → ExpList → Option Ref × ExpList) (el : ExpList) :
    exp_principled_pre node resolve el
      = (if node.alpha_links || node.alpha_default != 1 then
           ((exp_principled_base resolve el).1
              ++ [("Opacity", (resolve "Alpha" (exp_principled_base resolve el).2).1)],
            (resolve "Alpha" (exp_principled_base resolve el).2).2)
         else exp_principled_base resolve el) := by
  rcases hb : exp_principled_base resolve el with ⟨bsdf, el1⟩
  cases halpha : (node.alpha_links || node.alpha_default != 1)
  · simp only [exp_principled_pre, hb, halpha, Bool.false_eq_true, if_false]
  · rcases ha : resolve "Alpha" el1 with ⟨o, el2⟩
    simp only [exp_principled_pre, hb, halpha, if_true, ha]

theorem exp_principled_pre_lookup_opacity (node : PrincipledNode)
    (resolve : String → ExpList → Option Ref × ExpList) (el : ExpList) :
    ((exp_principled_pre node resolve el).1.lookup "Opacity").isSome
      = (node.alpha_links || node.alpha_default != 1) := by
  rw [exp_principled_pre_eq]
  cases halpha : (node.alpha_links || node.alpha_default != 1)
  · rw [if_neg (by decide)]
    rw [exp_principled_base_lookup_none resolve el "Opacity"
      (by decide) (by decide) (by decide) (by decide)]
    rfl
  · rw [if_pos rfl]
    simp only
    rw [lookup_append2, exp_principled_base_lookup_none resolve el "Opacity"
      (by decide) (by decide) (by decide) (by decide)]
    rfl

theorem exp_principled_pre_lookup_none (node : PrincipledNode)
    (resolve : String → ExpList → Option Ref × ExpList) (el : ExpList)
    (k : String) (h0 : k ≠ "Opacity") (h1 : k ≠ "BaseColor")
    (h2 : k ≠ "Metallic") (h3 : k ≠ "Roughness") (h4 : k ≠ "Specular") :
    (exp_principled_pre node resolve el).1.lookup k = none := by
  rw [exp_principled_pre_eq]
  cases halpha : (node.alpha_links || node.alpha_default != 1)
  · rw [if_neg (by decide)]
    exact exp_principled_base_lookup_none resolve el k h1 h2 h3 h4
  · rw [if_pos rfl]
    simp only
    rw [lookup_append2, exp_principled_base_lookup_none resolve el k h1 h2 h3 h4,
      lookup_cons_ne h0]
    rfl

/-- Claim C9, as stated, is false on the code: the `EMISSION` translator
multiplies Color by Strength unconditionally (lines 725-730).  Here the
Strength input is disconnected with default value 1 — the claim's
"otherwise" case in which Color should be used directly — yet the
emitted `EmissiveColor` channel is a fresh `Multiply` expression
(index 4), not the resolved Color (index 2). -/
theorem c9_counterexample :
    exp_emission (fun _ st => (.none, st))
        { ftype := SockType.RGBA, link := Option.none,
          default_value := DefaultVal.rgba 1 0 0 1 }
        { ftype := SockType.VALUE, link := Option.none,
          default_value := DefaultVal.value 1 } {}
      = ([("EmissiveColor", some ⟨4, 0⟩)],
         { exp_list := [colorNode 1 0 0 1, scalarNode 1,
             Node.mk "AppendVector" []
               [exp_input "0" (some ⟨0, 0⟩), exp_input "1" (some ⟨1, 0⟩)],
             scalarNode 1,
             Node.mk "Multiply" []
               [exp_input "0" (some ⟨2, 0⟩), exp_input "1" (some ⟨3, 0⟩)]] })
  ∧ (some (⟨4, 0⟩ : Ref)) ≠ some ⟨2, 0⟩ :=
  ⟨rfl, by decide⟩

theorem lookup_append_isSome_of_right_none {κ α : Type} [DecidableEq κ]
    (l₁ l₂ : List (κ × α)) (k : κ) (h : l₂.lookup k = none) :
    ((l₁ ++ l₂).lookup k).isSome = (l₁.lookup k).isSome := by
  rw [lookup_append2]
  rcases hop : l₁.lookup k with _ | v
  · simp [h]
  · rfl

theorem lookup_append_right_of_left_none {κ α : Type} [DecidableEq κ]
    {l₁ : List (κ × α)} (l₂ : List (κ × α)) {k : κ} (h : l₁.lookup k = none) :
    (l₁ ++ l₂).lookup k = l₂.lookup k := by
  rw [lookup_append2, h]

theorem lookup_append_none {κ α : Type} [DecidableEq κ]
    {l₁ l₂ : List (κ × α)} {k : κ} (h1 : l₁.lookup k = none)
    (h2 : l₂.lookup k = none) : (l₁ ++ l₂).lookup k = none := by
  rw [lookup_append2, h1]
  exact h2

/-- Claim C9 (amended): the `EMISSION` translator always multiplies Color
by Strength (the claimed conditional multiply belongs to the
`BSDF_PRINCIPLED` translator's emission channel); Principled adds
`Opacity` exactly when the Alpha input is linked or its default ≠ 1,
emits `EmissiveColor` as a `Multiply` by Emission Strength exactly when
that input is linked or its default ≠ 1 (else it stores the resolved
emission color directly), and adds `ClearCoat`/`ClearCoatRoughness`
exactly when the coat weight input is linked or its default ≠ 0.
(`hres_mono` states that input resolution only appends to the expression
list, which holds for the real resolver.) -/
theorem c9_conditional_channels
    (translate : Socket → ResolveState → ExpResult × ResolveState)
    (color_field strength_field : Field) (st : ResolveState)
    (node : PrincipledNode)
    (resolve : String → ExpList → Option Ref × ExpList) (el : ExpList)
    (hres_mono : ∀ (s : String) (el0 : ExpList),
      ∃ t, (resolve s el0).2 = el0 ++ t) :
    (∃ i, (exp_emission translate color_field strength_field st).1
        = [("EmissiveColor", some ⟨i, 0⟩)]
      ∧ ∃ n, ((exp_emission translate color_field strength_field st).2.exp_list)[i]?
          = some n ∧ n.tag = "Multiply")
  ∧ ((exp_principled node resolve el).1.lookup "Opacity").isSome
      = (node.alpha_links || node.alpha_default != 1)
  ∧ ((exp_principled node resolve el).1.lookup "ClearCoat").isSome
      = (node.coat_links || node.coat_default != 0)
  ∧ ((exp_principled node resolve el).1.lookup "ClearCoatRoughness").isSome
      = (node.coat_links || node.coat_default != 0)
  ∧ ((node.emission_strength_links || node.emission_strength_default != 1) = true →
      ∃ i, (exp_principled node resolve el).1.lookup "EmissiveColor"
          = some (some ⟨i, 0⟩)
        ∧ ∃ n, ((exp_principled node resolve el).2)[i]? = some n
            ∧ n.tag = "Multiply")
  ∧ ((node.emission_strength_links || node.emission_strength_default != 1) = false →
      (exp_principled node resolve el).1.lookup "EmissiveColor"
        = some ((resolve "Emission Color"
            (exp_principled_pre node resolve el).2).1)) := by
  constructor
  · rcases hc : get_expression translate color_field st with ⟨c, st1⟩
    rcases hs : get_expression translate strength_field st1 with ⟨s, st2⟩
    refine ⟨st2.exp_list.length, ?_,
      Node.mk "Multiply" [] [exp_input "0" c.toRef, exp_input "1" s.toRef], ?_, rfl⟩
    · simp only [exp_emission, hc, hs, exp_list_push]
    · simp only [exp_emission, hc, hs, exp_list_push]
      exact getElem?_concat_self st2.exp_list _
  rcases hpre : exp_principled_pre node resolve el with ⟨pre, el1⟩
  have hpre_op : (pre.lookup "Opacity").isSome
      = (node.alpha_links || node.alpha_default != 1) := by
    have h0 := exp_principled_pre_lookup_opacity node resolve el
    rw [hpre] at h0
    exact h0
  have hpre_em : pre.lookup "EmissiveColor" = none := by
    have h0 := exp_principled_pre_lookup_none node resolve el "EmissiveColor"
      (by decide) (by decide) (by decide) (by decide) (by decide)
    rw [hpre] at h0
    exact h0
  have hpre_cc : pre.lookup "ClearCoat" = none := by
    have h0 := exp_principled_pre_lookup_none node resolve el "ClearCoat"
      (by decide) (by decide) (by decide) (by decide) (by decide)
    rw [hpre] at h0
    exact h0
  have hpre_ccr : pre.lookup "ClearCoatRoughness" = none := by
    have h0 := exp_principled_pre_lookup_none node resolve el "ClearCoatRoughness"
      (by decide) (by decide) (by decide) (by decide) (by decide)
    rw [hpre] at h0
    exact h0
  rcases hec : resolve "Emission Color" el1 with ⟨ec, el2⟩
  cases hmul : (node.emission_strength_links || node.emission_strength_default != 1) with
  | false =>
      cases hcoat : (node.coat_links || node.coat_default != 0) with
      | false =>
          have heq : exp_principled node resolve el
              = (pre ++ [("EmissiveColor", ec)], el2) := by
            simp [exp_principled, hpre, hmul, hec, hcoat]
          rw [heq]
          refine ⟨?_, ?_, ?_, ?_, ?_⟩
          · rw [lookup_append_isSome_of_right_none _ _ _
              (by rw [lookup_cons_ne (by decide)]; rfl), hpre_op]
          · rw [lookup_append_isSome_of_right_none _ _ _
              (by rw [lookup_cons_ne (by decide)]; rfl), hpre_cc]
            rfl
          · rw [lookup_append_isSome_of_right_none _ _ _
              (by rw [lookup_cons_ne (by decide)]; rfl), hpre_ccr]
            rfl
          · exact fun hcontr => Bool.noConfusion hcontr
          · intro _
            rw [lookup_append_right_of_left_none _ hpre_em, lookup_cons_self]
      | true =>
          rcases hcw : resolve "Coat Weight" el2 with ⟨cw, el3⟩
          rcases hcr : resolve "Coat Roughness" el3 with ⟨cr, el4⟩
          have heq : exp_principled node resolve el
              = ((pre ++ [("EmissiveColor", ec)])
                  ++ [("ClearCoat", cw), ("ClearCoatRoughness", cr)], el4) := by
            simp [exp_principled, hpre, hmul, hec, hcoat, hcw, hcr]
          rw [heq]
          have hem_op : ((pre ++ [("EmissiveColor", ec)]).lookup "Opacity")
              = pre.lookup "Opacity" := by
            rw [lookup_append2]
            rcases hop : pre.lookup "Opacity" with _ | v
            · rw [lookup_cons_ne (by decide)]
              rfl
            · rfl
          refine ⟨?_, ?_, ?_, ?_, ?_⟩
          · rw [lookup_append_isSome_of_right_none _ _ _
              (by rw [lookup_cons_ne (by decide), lookup_cons_ne (by decide)]; rfl),
              hem_op, hpre_op]
          · rw [lookup_append_right_of_left_none _
              (lookup_append_none hpre_cc (by rw [lookup_cons_ne (by decide)]; rfl)),
              lookup_cons_self]
            rfl
          · rw [lookup_append_right_of_left_none _
              (lookup_append_none hpre_ccr (by rw [lookup_cons_ne (by decide)]; rfl)),
              lookup_cons_ne (by decide), lookup_cons_self]
            rfl
          · exact fun hcontr => Bool.noConfusion hcontr
          · intro _
            have hleft : (pre ++ [("EmissiveColor", ec)]).lookup "EmissiveColor"
                = some ec := by
              rw [lookup_append_right_of_left_none _ hpre_em, lookup_cons_self]
            rw [lookup_append2, hleft]
  | true =>
      rcases hes : resolve "Emission Strength" el2 with ⟨es, el3⟩
      cases hcoat : (node.coat_links || node.coat_default != 0) with
      | false =>
          have heq : exp_principled node resolve el
              = (pre ++ [("EmissiveColor", some ⟨el3.length, 0⟩)],
                 el3 ++ [Node.mk "Multiply" []
                   [exp_input "0" ec, exp_input "1" es]]) := by
            simp [exp_principled, hpre, hmul, hec, hes, hcoat, exp_list_push]
          rw [heq]
          refine ⟨?_, ?_, ?_, ?_, ?_⟩
          · rw [lookup_append_isSome_of_right_none _ _ _
              (by rw [lookup_cons_ne (by decide)]; rfl), hpre_op]
          · rw [lookup_append_isSome_of_right_none _ _ _
              (by rw [lookup_cons_ne (by decide)]; rfl), hpre_cc]
            rfl
          · rw [lookup_append_isSome_of_right_none _ _ _
              (by rw [lookup_cons_ne (by decide)]; rfl), hpre_ccr]
            rfl
          · intro _
            refine ⟨el3.length, ?_,
              Node.mk "Multiply" [] [exp_input "0" ec, exp_input "1" es], ?_, rfl⟩
            · rw [lookup_append_right_of_left_none _ hpre_em, lookup_cons_self]
            · exact getElem?_concat_self el3 _
          · exact fun hcontr => Bool.noConfusion hcontr
      | true =>
          rcases hcw : resolve "Coat Weight"
            (el3 ++ [Node.mk "Multiply" [] [exp_input "0" ec, exp_input "1" es]])
            with ⟨cw, el5⟩
          rcases hcr : resolve "Coat Roughness" el5 with ⟨cr, el6⟩
          obtain ⟨t1, ht1⟩ := hres_mono "Coat Weight"
            (el3 ++ [Node.mk "Multiply" [] [exp_input "0" ec, exp_input "1" es]])
          obtain ⟨t2, ht2⟩ := hres_mono "Coat Roughness" el5
          rw [hcw] at ht1
          rw [hcr] at ht2
          replace ht1 : el5
              = (el3 ++ [Node.mk "Multiply" [] [exp_input "0" ec, exp_input "1" es]])
                ++ t1 := ht1
          replace ht2 : el6 = el5 ++ t2 := ht2
          have heq : exp_principled node resolve el
              = ((pre ++ [("EmissiveColor", some ⟨el3.length, 0⟩)])
                  ++ [("ClearCoat", cw), ("ClearCoatRoughness", cr)], el6) := by
            simp [exp_principled, hpre, hmul, hec, hes, hcoat, hcw, hcr,
              exp_list_push]
          rw [heq]
          have hem_op : ((pre ++ [("EmissiveColor", some (Ref.mk el3.length 0))]).lookup
              "Opacity") = pre.lookup "Opacity" := by
            rw [lookup_append2]
            rcases hop : pre.lookup "Opacity" with _ | v
            · rw [lookup_cons_ne (by decide)]
              rfl
            · rfl
          refine ⟨?_, ?_, ?_, ?_, ?_⟩
          · rw [lookup_append_isSome_of_right_none _ _ _
              (by rw [lookup_cons_ne (by decide), lookup_cons_ne (by decide)]; rfl),
              hem_op, hpre_op]
          · rw [lookup_append_right_of_left_none _
              (lookup_append_none hpre_cc (by rw [lookup_cons_ne (by decide)]; rfl)),
              lookup_cons_self]
            rfl
          · rw [lookup_append_right_of_left_none _
              (lookup_append_none hpre_ccr (by rw [lookup_cons_ne (by decide)]; rfl)),
              lookup_cons_ne (by decide), lookup_cons_self]
            rfl
          · intro _
            refine ⟨el3.length, ?_,
              Node.mk "Multiply" [] [exp_input "0" ec, exp_input "1" es], ?_, ?_⟩
            · have hleft : (pre ++ [("EmissiveColor", some (Ref.mk el3.length 0))]).lookup
                  "EmissiveColor" = some (some (Ref.mk el3.length 0)) := by
                rw [lookup_append_right_of_left_none _ hpre_em, lookup_cons_self]
              rw [lookup_append2, hleft]
            · rw [ht2, ht1]
              exact getElem?_append_left_of_some
                (getElem?_append_left_of_some (getElem?_concat_self el3 _))
            · rfl
          · exact fun hcontr => Bool.noConfusion hcontr

/-- Witness for C9's amended theorem: instantiate at a Principled node
with linked Emission Strength and a resolver that only appends; the
emission channel is a fresh `Multiply`. -/
theorem c9_conditional_channels_witness :
    ∃ i, (exp_principled
        { alpha_links := false, alpha_default := 1,
          emission_strength_links := true, emission_strength_default := 1,
          coat_links := false, coat_default := 0 }
        (fun _ el0 => (some ⟨0, 0⟩, el0)) []).1.lookup "EmissiveColor"
      = some (some ⟨i, 0⟩)
    ∧ ∃ n, ((exp_principled
        { alpha_links := false, alpha_default := 1,
          emission_strength_links := true, emission_strength_default := 1,
          coat_links := false, coat_default := 0 }
        (fun _ el0 => (some ⟨0, 0⟩, el0)) []).2)[i]? = some n
      ∧ n.tag = "Multiply" :=
  (c9_conditional_channels (fun _ st => (.none, st))
    { ftype := SockType.RGBA, link := Option.none,
      default_value := DefaultVal.rgba 1 0 0 1 }
    { ftype := SockType.VALUE, link := Option.none,
      default_value := DefaultVal.value 1 }
    {}
    { alpha_links := false, alpha_default := 1,
      emission_strength_links := true, emission_strength_default := 1,
      coat_links := false, coat_default := 0 }
    (fun _ el0 => (some ⟨0, 0⟩, el0)) []
    (fun _ el0 => ⟨[], by simp⟩)).2.2.2.2.1 rfl

theorem getElem?_append_cons (el : ExpList) (x : Node) (t : ExpList) :
    (el ++ (x :: t))[el.length]? = some x := by
  rw [List.getElem?_append_right (Nat.le_refl _)]
  simp

theorem getElem?_append_cons1 (el : ExpList) (x y : Node) (t : ExpList) :
    (el ++ (x :: y :: t))[el.length + 1]? = some y := by
  rw [show el ++ (x :: y :: t) = (el ++ [x]) ++ (y :: t) from by simp]
  rw [show el.length + 1 = (el ++ [x]).length from by simp]
  exact getElem?_append_cons (el ++ [x]) y t

theorem getElem?_append_cons2 (el : ExpList) (x y z : Node) (t : ExpList) :
    (el ++ (x :: y :: z :: t))[el.length + 2]? = some z := by
  rw [show el ++ (x :: y :: z :: t) = (el ++ [x, y]) ++ (z :: t) from by simp]
  rw [show el.length + 2 = (el ++ [x, y]).length from by simp]
  exact getElem?_append_cons (el ++ [x, y]) z t

theorem contains_additive_iff (name : String) :
    ((["BaseColor", "EmissiveColor"] : List String).contains name) = true
      ↔ (name = "BaseColor" ∨ name = "EmissiveColor") := by
  simp

theorem pyGet_setKey_self (l : Aggregate) (k : String) (v : Option Ref) :
    pyGet (setKey l k v) k = v := by
  unfold pyGet
  rw [lookup_setKey_self]
  cases v <;> rfl

theorem exists_append2 {α : Type} (l : List α) (y z : α) :
    ∃ t, l ++ [y] ++ [z] = l ++ t := ⟨[y, z], by simp⟩

theorem exists_append3 {α : Type} (l : List α) (x y z : α) :
    ∃ t, l ++ [x] ++ [y] ++ [z] = l ++ t := ⟨[x, y, z], by simp⟩

theorem add_shader_step_ok (A B : Aggregate) (acc : Aggregate × ExpList)
    (name : String) (res : Aggregate × ExpList)
    (h : add_shader_step A B acc name = .ok res) :
    (∃ t, res.2 = acc.2 ++ t)
  ∧ (∀ k, k ≠ name → res.1.lookup k = acc.1.lookup k)
  ∧ (acc.1.lookup name = none →
      res.1.map Prod.fst = acc.1.map Prod.fst ++ [name])
  ∧ addChannelSpec (pyGet A name) (pyGet B name) name res.1 res.2 := by
  rcases hA : pyGet A name with _ | a <;> rcases hB : pyGet B name with _ | b
  · -- neither side truthy
    by_cases hop : name = "Opacity"
    · subst hop
      simp only [add_shader_step, hA, hB, exp_scalar, exp_list_push, if_true,
        if_pos rfl] at h
      rw [if_neg (by decide)] at h
      rw [if_pos (by rw [pyGet_setKey_self]; rfl)] at h
      injection h with h'
      subst h'
      refine ⟨exists_append3 acc.2 _ _ _, fun k hk => lookup_setKey_ne _ hk _,
        fun hnone => by rw [keys_setKey_of_none _ _ _ hnone], ?_⟩
      simp only [addChannelSpec]
      rw [if_pos trivial]
      exact ⟨(acc.2 ++ [scalarNode 1] ++ [scalarNode (1/2)]).length,
        acc.2.length, (acc.2 ++ [scalarNode 1]).length,
        lookup_setKey_self _ _ _,
        getElem?_append_left_of_some
          (getElem?_append_left_of_some (getElem?_concat_self acc.2 _)),
        getElem?_append_left_of_some (getElem?_concat_self (acc.2 ++ [scalarNode 1]) _),
        getElem?_concat_self (acc.2 ++ [scalarNode 1] ++ [scalarNode (1/2)]) _⟩
    · by_cases hnorm : name = "Normal"
      · subst hnorm
        simp only [add_shader_step, hA, hB, eq_self_iff_true, if_true] at h
        rw [if_neg (by decide : ¬ ("Normal" : String) = "Opacity")] at h
        injection h with h'
        subst h'
        refine ⟨⟨[], by simp⟩, fun k hk => lookup_setKey_ne _ hk _, fun hnone => by
          rw [keys_setKey_of_none _ _ _ hnone], ?_⟩
        simp only [addChannelSpec]
        rw [if_neg (by decide)]
        exact ⟨trivial, lookup_setKey_self _ _ _⟩
      · exfalso
        simp only [add_shader_step, hA, hB] at h
        rw [if_neg hop, if_neg hnorm] at h
        rw [if_neg (by simp [pyGet_setKey_self])] at h
        cases h
  · -- only B truthy
    by_cases hop : name = "Opacity"
    · subst hop
      simp only [add_shader_step, hA, hB, exp_scalar, exp_list_push, if_true,
        if_pos rfl] at h
      rw [if_neg (by decide)] at h
      rw [if_pos (by rw [pyGet_setKey_self]; rfl)] at h
      injection h with h'
      subst h'
      refine ⟨exists_append3 acc.2 _ _ _, fun k hk => lookup_setKey_ne _ hk _,
        fun hnone => by rw [keys_setKey_of_none _ _ _ hnone], ?_⟩
      simp only [addChannelSpec]
      rw [if_pos trivial]
      exact ⟨(acc.2 ++ [scalarNode 1] ++ [scalarNode (1/2)]).length,
        acc.2.length, (acc.2 ++ [scalarNode 1]).length,
        lookup_setKey_self _ _ _,
        getElem?_append_left_of_some
          (getElem?_append_left_of_some (getElem?_concat_self acc.2 _)),
        getElem?_append_left_of_some (getElem?_concat_self (acc.2 ++ [scalarNode 1]) _),
        getElem?_concat_self (acc.2 ++ [scalarNode 1] ++ [scalarNode (1/2)]) _⟩
    · simp only [add_shader_step, hA, hB] at h
      rw [if_neg hop] at h
      by_cases hnorm : name = "Normal"
      all_goals
        first
          | rw [if_pos hnorm] at h
          | rw [if_neg hnorm, if_pos (by rw [pyGet_setKey_self]; rfl)] at h
        injection h with h'
        subst h'
        refine ⟨⟨[], by simp⟩, fun k hk => lookup_setKey_ne _ hk _, fun hnone => by
          rw [keys_setKey_of_none _ _ _ hnone], ?_⟩
        simp only [addChannelSpec]
        rw [if_neg hop]
        exact lookup_setKey_self _ _ _
  · -- only A truthy
    by_cases hop : name = "Opacity"
    · subst hop
      simp only [add_shader_step, hA, hB, exp_scalar, exp_list_push, if_true,
        if_pos rfl] at h
      rw [if_neg (by decide)] at h
      rw [if_pos (by rw [pyGet_setKey_self]; rfl)] at h
      injection h with h'
      subst h'
      refine ⟨exists_append3 acc.2 _ _ _, fun k hk => lookup_setKey_ne _ hk _,
        fun hnone => by rw [keys_setKey_of_none _ _ _ hnone], ?_⟩
      simp only [addChannelSpec]
      rw [if_pos trivial]
      exact ⟨(acc.2 ++ [scalarNode 1] ++ [scalarNode (1/2)]).length,
        acc.2.length, (acc.2 ++ [scalarNode 1]).length,
        lookup_setKey_self _ _ _,
        getElem?_append_left_of_some
          (getElem?_append_left_of_some (getElem?_concat_self acc.2 _)),
        getElem?_append_left_of_some (getElem?_concat_self (acc.2 ++ [scalarNode 1]) _),
        getElem?_concat_self (acc.2 ++ [scalarNode 1] ++ [scalarNode (1/2)]) _⟩
    · simp only [add_shader_step, hA, hB] at h
      rw [if_neg hop] at h
      by_cases hnorm : name = "Normal"
      all_goals
        first
          | rw [if_pos hnorm] at h
          | rw [if_neg hnorm, if_pos (by rw [pyGet_setKey_self]; rfl)] at h
        injection h with h'
        subst h'
        refine ⟨⟨[], by simp⟩, fun k hk => lookup_setKey_ne _ hk _, fun hnone => by
          rw [keys_setKey_of_none _ _ _ hnone], ?_⟩
        simp only [addChannelSpec]
        rw [if_neg hop]
        exact lookup_setKey_self _ _ _
  · -- both truthy
    by_cases hadd : name = "BaseColor" ∨ name = "EmissiveColor"
    · have hcont : ((["BaseColor", "EmissiveColor"] : List String).contains name)
          = true := (contains_additive_iff name).mpr hadd
      simp only [add_shader_step, hA, hB, hcont, if_true, exp_list_push] at h
      have hnorm : ¬ name = "Normal" := by
        rcases hadd with h1 | h1 <;> (subst h1; decide)
      rw [if_neg hnorm] at h
      rw [if_pos (by rw [pyGet_setKey_self]; rfl)] at h
      injection h with h'
      subst h'
      refine ⟨⟨_, rfl⟩, fun k hk => lookup_setKey_ne _ hk _, fun hnone => by
        rw [keys_setKey_of_none _ _ _ hnone], ?_⟩
      simp only [addChannelSpec]
      rw [if_pos hadd]
      exact ⟨acc.2.length, lookup_setKey_self _ _ _,
        getElem?_concat_self acc.2 _⟩
    · have hcont : ((["BaseColor", "EmissiveColor"] : List String).contains name)
          = false := by
        cases hc : ((["BaseColor", "EmissiveColor"] : List String).contains name)
        · rfl
        · exact absurd ((contains_additive_iff name).mp hc) hadd
      simp only [add_shader_step, hA, hB, hcont, Bool.false_eq_true, if_false,
        exp_scalar, exp_list_push] at h
      by_cases hnorm2 : name = "Normal"
      all_goals
        first
          | rw [if_pos hnorm2] at h
          | rw [if_neg hnorm2, if_pos (by rw [pyGet_setKey_self]; rfl)] at h
        injection h with h'
        subst h'
        refine ⟨exists_append2 acc.2 _ _, fun k hk => lookup_setKey_ne _ hk _,
          fun hnone => by rw [keys_setKey_of_none _ _ _ hnone], ?_⟩
        simp only [addChannelSpec]
        rw [if_neg hadd]
        exact ⟨(acc.2 ++ [scalarNode (1/2)]).length, acc.2.length,
          lookup_setKey_self _ _ _,
          getElem?_append_left_of_some (getElem?_concat_self acc.2 _),
          getElem?_concat_self (acc.2 ++ [scalarNode (1/2)]) _⟩

theorem addChannelSpec_mono {a b : Option Ref} {name : String}
    {res res' : Aggregate} {el el' : ExpList}
    (h : addChannelSpec a b name res el)
    (hres : res'.lookup name = res.lookup name)
    (hel : ∃ t, el' = el ++ t) :
    addChannelSpec a b name res' el' := by
  obtain ⟨t, rfl⟩ := hel
  rcases a with _ | x <;> rcases b with _ | y <;>
    simp only [addChannelSpec] at h ⊢
  · by_cases hop : name = "Opacity"
    · rw [if_pos hop] at h ⊢
      obtain ⟨i, j, k, h1, h2, h3, h4⟩ := h
      exact ⟨i, j, k, hres ▸ h1, getElem?_append_left_of_some h2,
        getElem?_append_left_of_some h3, getElem?_append_left_of_some h4⟩
    · rw [if_neg hop] at h ⊢
      exact ⟨h.1, hres ▸ h.2⟩
  · by_cases hop : name = "Opacity"
    · rw [if_pos hop] at h ⊢
      obtain ⟨i, j, k, h1, h2, h3, h4⟩ := h
      exact ⟨i, j, k, hres ▸ h1, getElem?_append_left_of_some h2,
        getElem?_append_left_of_some h3, getElem?_append_left_of_some h4⟩
    · rw [if_neg hop] at h ⊢
      exact hres ▸ h
  · by_cases hop : name = "Opacity"
    · rw [if_pos hop] at h ⊢
      obtain ⟨i, j, k, h1, h2, h3, h4⟩ := h
      exact ⟨i, j, k, hres ▸ h1, getElem?_append_left_of_some h2,
        getElem?_append_left_of_some h3, getElem?_append_left_of_some h4⟩
    · rw [if_neg hop] at h ⊢
      exact hres ▸ h
  · by_cases hadd : name = "BaseColor" ∨ name = "EmissiveColor"
    · rw [if_pos hadd] at h ⊢
      obtain ⟨i, h1, h2⟩ := h
      exact ⟨i, hres ▸ h1, getElem?_append_left_of_some h2⟩
    · rw [if_neg hadd] at h ⊢
      obtain ⟨i, j, h1, h2, h3⟩ := h
      exact ⟨i, j, hres ▸ h1, getElem?_append_left_of_some h2,
        getElem?_append_left_of_some h3⟩

theorem add_shader_fold_spec (A B : Aggregate) :
    ∀ (ks : List String) (acc : Aggregate) (el : ExpList) (res : Aggregate)
      (el' : ExpList),
    add_shader_fold A B ks (acc, el) = .ok (res, el') →
    ks.Nodup →
    (∀ k ∈ ks, acc.lookup k = none) →
    (∃ t, el' = el ++ t)
  ∧ res.map Prod.fst = acc.map Prod.fst ++ ks
  ∧ (∀ k, k ∉ ks → res.lookup k = acc.lookup k)
  ∧ (∀ k ∈ ks, addChannelSpec (pyGet A k) (pyGet B k) k res el') := by
  intro ks
  induction ks with
  | nil =>
      intro acc el res el' h _ _
      simp only [add_shader_fold] at h
      injection h with h'
      rw [Prod.mk.injEq] at h'
      obtain ⟨rfl, rfl⟩ := h'
      exact ⟨⟨[], by simp⟩, by simp, fun k _ => rfl, fun k hk => absurd hk (by simp)⟩
  | cons a t ih =>
      intro acc el res el' h hnd hfresh
      simp only [add_shader_fold] at h
      rcases hstep : add_shader_step A B (acc, el) a with e | acc'
      · rw [hstep] at h
        cases h
      · rw [hstep] at h
        obtain ⟨hna, hndt⟩ := List.nodup_cons.mp hnd
        obtain ⟨hext1, hunt1, hkeys1, hspec1⟩ :=
          add_shader_step_ok A B (acc, el) a acc' hstep
        have hfresh' : ∀ k ∈ t, acc'.1.lookup k = none := by
          intro k hk
          have hka : k ≠ a := fun he => hna (he ▸ hk)
          rw [hunt1 k hka]
          exact hfresh k (List.mem_cons_of_mem _ hk)
        obtain ⟨ihext, ihkeys, ihunt, ihspec⟩ :=
          ih acc'.1 acc'.2 res el' h hndt hfresh'
        refine ⟨?_, ?_, ?_, ?_⟩
        · obtain ⟨t1, ht1⟩ := hext1
          obtain ⟨t2, ht2⟩ := ihext
          exact ⟨t1 ++ t2, by rw [ht2, ht1, List.append_assoc]⟩
        · rw [ihkeys, hkeys1 (hfresh a (List.mem_cons_self _ _)),
            List.append_assoc, List.singleton_append]
        · intro k hk
          have hka : k ≠ a := fun he => hk (he ▸ List.mem_cons_self _ _)
          have hkt : k ∉ t := fun he => hk (List.mem_cons_of_mem _ he)
          rw [ihunt k hkt, hunt1 k hka]
        · intro k hk
          rcases List.mem_cons.mp hk with rfl | hkt
          · exact addChannelSpec_mono hspec1 (ihunt k hna) ihext
          · exact ihspec k hkt

/-- Claim C1, as stated, is false on the code: in a Shader-Add merge, a
channel present on only one side is NOT combined against a synthesized
default (except `Opacity`), and a one-sided `Normal` is kept, not
omitted.  Here `A` carries `Metallic` and `Normal` that `B` lacks: the
merge succeeds (no assertion), the result keeps `Normal` (reference
`⟨2, 0⟩` passed through unchanged) and passes `Metallic` through
unchanged (reference `⟨1, 0⟩`) with no blend or default emitted for
either; only the shared `BaseColor` gets a new (`Add`) expression. -/
theorem c1_counterexample :
    add_shader_merge
        [("BaseColor", some ⟨0, 0⟩), ("Metallic", some ⟨1, 0⟩),
         ("Normal", some ⟨2, 0⟩)]
        [("BaseColor", some ⟨3, 0⟩)]
        [scalarNode 5, scalarNode 6, scalarNode 7, scalarNode 8]
      = .ok ([("BaseColor", some ⟨4, 0⟩), ("Metallic", some ⟨1, 0⟩),
              ("Normal", some ⟨2, 0⟩)],
             [scalarNode 5, scalarNode 6, scalarNode 7, scalarNode 8,
              Node.mk "Add" []
                [exp_input "0" (some ⟨0, 0⟩), exp_input "1" (some ⟨3, 0⟩)]]) :=
  rfl

/-- Claim C1 (amended): the Shader-Add merge processes the union of the
two aggregates' channel names in sorted (lexicographic) order; a channel
truthy on both sides combines via an `"Add"` expression for `BaseColor`
and `EmissiveColor` and via a fixed 50% `LinearInterpolate` otherwise; an
`Opacity` channel missing (or `None`) on one side is interpolated against
a synthesized constant 1 with factor 0.5; every other channel present on
only one side — `Normal` included — is passed through unchanged with no
synthesized default, and the non-`None` assertion is skipped exactly for
`Normal`, so a one-sided `Normal` is kept in the result and raises no
assertion. -/
theorem c1_add_shader_characterization (A B : Aggregate) (el : ExpList)
    (res : Aggregate) (el' : ExpList)
    (h : add_shader_merge A B el = .ok (res, el')) :
    List.Sorted pyStrLe (allKeys A B)
  ∧ (∀ k, k ∈ allKeys A B ↔ ((A.lookup k).isSome ∨ (B.lookup k).isSome))
  ∧ res.map Prod.fst = allKeys A B
  ∧ (∀ k, k ∉ allKeys A B → res.lookup k = none)
  ∧ (∀ k ∈ allKeys A B, addChannelSpec (pyGet A k) (pyGet B k) k res el')
  ∧ (∃ t, el' = el ++ t) := by
  have hnd : (allKeys A B).Nodup :=
    (List.perm_insertionSort _ _).nodup_iff.mpr (List.nodup_dedup _)
  obtain ⟨hext, hkeys, hunt, hspec⟩ :=
    add_shader_fold_spec A B (allKeys A B) [] el res el' h hnd
      (fun k _ => rfl)
  refine ⟨List.sorted_insertionSort _ _, ?_, by simpa using hkeys,
    fun k hk => by rw [hunt k hk]; rfl, hspec, hext⟩
  intro k
  rw [show allKeys A B = ((A.map Prod.fst ++ B.map Prod.fst).dedup).insertionSort pyStrLe
    from rfl]
  rw [(List.perm_insertionSort _ _).mem_iff, List.mem_dedup, List.mem_append,
    lookup_isSome_iff, lookup_isSome_iff]

/-- Witness for C1's amended theorem at the concrete merge of
`[("Opacity", ⟨0,0⟩)]` with `[("BaseColor", ⟨1,0⟩)]`. -/
theorem c1_add_shader_characterization_witness :
    List.Sorted pyStrLe
      (allKeys [("Opacity", some ⟨0, 0⟩)] [("BaseColor", some ⟨1, 0⟩)])
  ∧ (∀ k, k ∈ allKeys [("Opacity", some ⟨0, 0⟩)] [("BaseColor", some ⟨1, 0⟩)]
      ↔ ((([("Opacity", some (⟨0, 0⟩ : Ref))] : Aggregate).lookup k).isSome
          ∨ (([("BaseColor", some (⟨1, 0⟩ : Ref))] : Aggregate).lookup k).isSome))
  ∧ ([("BaseColor", some (⟨1, 0⟩ : Ref)), ("Opacity", some (⟨4, 0⟩ : Ref))] :
      Aggregate).map Prod.fst
      = allKeys [("Opacity", some ⟨0, 0⟩)] [("BaseColor", some ⟨1, 0⟩)]
  ∧ (∀ k, k ∉ allKeys [("Opacity", some ⟨0, 0⟩)] [("BaseColor", some ⟨1, 0⟩)] →
      ([("BaseColor", some (⟨1, 0⟩ : Ref)), ("Opacity", some (⟨4, 0⟩ : Ref))] :
        Aggregate).lookup k = none)
  ∧ (∀ k ∈ allKeys [("Opacity", some ⟨0, 0⟩)] [("BaseColor", some ⟨1, 0⟩)],
      addChannelSpec (pyGet [("Opacity", some ⟨0, 0⟩)] k)
        (pyGet [("BaseColor", some ⟨1, 0⟩)] k) k
        [("BaseColor", some ⟨1, 0⟩), ("Opacity", some ⟨4, 0⟩)]
        [scalarNode 5, scalarNode 6, scalarNode 1, scalarNode (1/2),
         Node.mk "LinearInterpolate" []
           [exp_input "0" (some ⟨0, 0⟩), exp_input "1" (some ⟨2, 0⟩),
            exp_input "2" (some ⟨3, 0⟩)]])
  ∧ (∃ t, ([scalarNode 5, scalarNode 6, scalarNode 1, scalarNode (1/2),
        Node.mk "LinearInterpolate" []
          [exp_input "0" (some ⟨0, 0⟩), exp_input "1" (some ⟨2, 0⟩),
           exp_input "2" (some ⟨3, 0⟩)]] : ExpList)
      = [scalarNode 5, scalarNode 6] ++ t) :=
  c1_add_shader_characterization
    [("Opacity", some ⟨0, 0⟩)] [("BaseColor", some ⟨1, 0⟩)]
    [scalarNode 5, scalarNode 6]
    [("BaseColor", some ⟨1, 0⟩), ("Opacity", some ⟨4, 0⟩)]
    [scalarNode 5, scalarNode 6, scalarNode 1, scalarNode (1/2),
     Node.mk "LinearInterpolate" []
       [exp_input "0" (some ⟨0, 0⟩), exp_input "1" (some ⟨2, 0⟩),
        exp_input "2" (some ⟨3, 0⟩)]]
    rfl

/-- Witness for C5's amended theorem at a concrete two-material run. -/
theorem c5_assertion_aborts_run_witness :
    (0 : Nat) ∈ [0, 1]
  ∧ (fun n : Nat =>
        if n = 0 then (.error "AssertionError" : Except String Nat) else .ok n) 0
      = .error "AssertionError"
  ∧ ∃ e', collect_all_materials_run
        (fun n : Nat => if n = 0 then .error "AssertionError" else .ok n) [0, 1]
      = .error e' :=
  ⟨by decide, rfl,
   c5_assertion_aborts_run _ [0, 1] 0 "AssertionError" (by decide) rfl⟩

theorem exists_ext_trans {α : Type} {a b c : List α}
    (h1 : ∃ t, b = a ++ t) (h2 : ∃ t, c = b ++ t) : ∃ t, c = a ++ t := by
  obtain ⟨t1, rfl⟩ := h1
  obtain ⟨t2, rfl⟩ := h2
  exact ⟨t1 ++ t2, by rw [List.append_assoc]⟩

theorem pyGet_setKey_ne (l : Aggregate) {a k : String} (h : a ≠ k)
    (v : Option Ref) : pyGet (setKey l k v) a = pyGet l a := by
  unfold pyGet
  rw [lookup_setKey_ne _ h _]

/-- What one pass of the `MIX_SHADER` channel loop guarantees, by induction
over the second aggregate: the expression list only grows; channels outside
the second aggregate keep their value from the first; a channel carried by
both gets a fresh `LinearInterpolate` of the two values by the mix factor;
a channel carried only by the second is copied in unchanged. -/
theorem mix_shader_loop_spec (fac : Option Ref) :
    ∀ (B : List (String × Option Ref)) (A : Aggregate) (el : ExpList),
    (B.map Prod.fst).Nodup →
    (∃ t, (mix_shader_loop fac B A el).2 = el ++ t)
  ∧ (∀ k, k ∉ B.map Prod.fst →
      (mix_shader_loop fac B A el).1.lookup k = A.lookup k)
  ∧ (∀ k v, B.lookup k = some v → (A.lookup k).isSome = true →
      ∃ i, (mix_shader_loop fac B A el).1.lookup k = some (some ⟨i, 0⟩) ∧
        (mix_shader_loop fac B A el).2[i]? = some
          (Node.mk "LinearInterpolate" []
            [exp_input "0" (pyGet A k), exp_input "1" v, exp_input "2" fac]))
  ∧ (∀ k v, B.lookup k = some v → A.lookup k = none →
      (mix_shader_loop fac B A el).1.lookup k = some v) := by
  intro B
  induction B with
  | nil =>
      intro A el _
      refine ⟨⟨[], by simp [mix_shader_loop]⟩, fun k _ => rfl,
        fun k v hv _ => ?_, fun k v hv _ => ?_⟩
      · simp at hv
      · simp at hv
  | cons kv rest ih =>
      intro A el hnd
      obtain ⟨k0, v0⟩ := kv
      simp only [List.map_cons] at hnd
      obtain ⟨hk0, hndr⟩ := List.nodup_cons.mp hnd
      cases hA0 : (A.lookup k0).isSome with
      | true =>
          have hstep : mix_shader_loop fac ((k0, v0) :: rest) A el
              = mix_shader_loop fac rest
                  (setKey A k0 (some ⟨el.length, 0⟩))
                  (el ++ [Node.mk "LinearInterpolate" []
                    [exp_input "0" (pyGet A k0), exp_input "1" v0,
                     exp_input "2" fac]]) := by
            simp only [mix_shader_loop, List.foldl, exp_list_push]
            rw [if_pos hA0]
          rw [hstep]
          obtain ⟨ihext, ihout, ihboth, ihone⟩ :=
            ih (setKey A k0 (some ⟨el.length, 0⟩))
              (el ++ [Node.mk "LinearInterpolate" []
                [exp_input "0" (pyGet A k0), exp_input "1" v0,
                 exp_input "2" fac]]) hndr
          refine ⟨?_, ?_, ?_, ?_⟩
          · exact exists_ext_trans ⟨_, rfl⟩ ihext
          · intro k hk
            simp only [List.map_cons, List.mem_cons, not_or] at hk
            rw [ihout k hk.2, lookup_setKey_ne _ hk.1 _]
          · intro k v hv hs
            by_cases hek : k = k0
            · subst hek
              rw [lookup_cons_self] at hv
              injection hv with hv
              subst hv
              refine ⟨el.length, ?_, ?_⟩
              · rw [ihout k hk0, lookup_setKey_self]
              · obtain ⟨t, ht⟩ := ihext
                rw [ht]
                exact getElem?_append_left_of_some (getElem?_concat_self el _)
            · rw [lookup_cons_ne hek] at hv
              have hs' : ((setKey A k0 (some ⟨el.length, 0⟩)).lookup k).isSome
                  = true := by rw [lookup_setKey_ne _ hek _]; exact hs
              obtain ⟨i, h1, h2⟩ := ihboth k v hv hs'
              rw [pyGet_setKey_ne A hek _] at h2
              exact ⟨i, h1, h2⟩
          · intro k v hv hn
            by_cases hek : k = k0
            · subst hek
              rw [hn] at hA0
              cases hA0
            · rw [lookup_cons_ne hek] at hv
              have hn' : (setKey A k0 (some ⟨el.length, 0⟩)).lookup k = none := by
                rw [lookup_setKey_ne _ hek _]; exact hn
              exact ihone k v hv hn'
      | false =>
          have hstep : mix_shader_loop fac ((k0, v0) :: rest) A el
              = mix_shader_loop fac rest (setKey A k0 v0) el := by
            simp only [mix_shader_loop, List.foldl]
            rw [if_neg (by simp [hA0])]
          rw [hstep]
          obtain ⟨ihext, ihout, ihboth, ihone⟩ := ih (setKey A k0 v0) el hndr
          refine ⟨ihext, ?_, ?_, ?_⟩
          · intro k hk
            simp only [List.map_cons, List.mem_cons, not_or] at hk
            rw [ihout k hk.2, lookup_setKey_ne _ hk.1 _]
          · intro k v hv hs
            by_cases hek : k = k0
            · subst hek
              rw [hs] at hA0
              cases hA0
            · rw [lookup_cons_ne hek] at hv
              have hs' : ((setKey A k0 v0).lookup k).isSome = true := by
                rw [lookup_setKey_ne _ hek _]; exact hs
              obtain ⟨i, h1, h2⟩ := ihboth k v hv hs'
              rw [pyGet_setKey_ne A hek _] at h2
              exact ⟨i, h1, h2⟩
          · intro k v hv hn
            by_cases hek : k = k0
            · subst hek
              rw [lookup_cons_self] at hv
              injection hv with hv
              subst hv
              rw [ihout k hk0, lookup_setKey_self]
            · rw [lookup_cons_ne hek] at hv
              have hn' : (setKey A k0 v0).lookup k = none := by
                rw [lookup_setKey_ne _ hek _]; exact hn
              exact ihone k v hv hn'

/-- Claim C2: in a Mix-Shader merge, if either operand aggregate carries an
`Opacity` key, both are forced to carry one before blending (a constant
`Scalar 1` is synthesized into whichever side lacks it, and sides that
already carry it are left untouched); afterwards every non-`Opacity`
channel present on only one side passes through unchanged and every
channel present on both sides blends via a fresh `LinearInterpolate` by
the node's resolved mix factor; in particular, when only the first
aggregate carries `Opacity`, the result's `Opacity` is a blend of the
first side's `Opacity` against the synthesized constant 1 by the mix
factor. -/
theorem c2_mix_shader_characterization
    (A B : Aggregate) (fac_of : ExpList → Option Ref × ExpList) (el : ExpList)
    (res : Aggregate) (el' : ExpList)
    (h : mix_shader_merge A B fac_of el = (res, el'))
    (hndB : (B.map Prod.fst).Nodup)
    (hfac : ∀ e, ∃ t, (fac_of e).2 = e ++ t) :
    (((A.lookup "Opacity").isSome = true ∨ (B.lookup "Opacity").isSome = true) →
      ((mix_force_opacity A B el).1.lookup "Opacity").isSome = true
      ∧ ((mix_force_opacity A B el).2.1.lookup "Opacity").isSome = true)
  ∧ ((A.lookup "Opacity").isSome = true → (mix_force_opacity A B el).1 = A)
  ∧ ((B.lookup "Opacity").isSome = true → (mix_force_opacity A B el).2.1 = B)
  ∧ (A.lookup "Opacity" = none → (B.lookup "Opacity").isSome = true →
      (mix_force_opacity A B el).1.lookup "Opacity" = some (some ⟨el.length, 0⟩)
      ∧ (mix_force_opacity A B el).2.2[el.length]? = some (scalarNode 1))
  ∧ (B.lookup "Opacity" = none → (A.lookup "Opacity").isSome = true →
      (mix_force_opacity A B el).2.1.lookup "Opacity" = some (some ⟨el.length, 0⟩)
      ∧ (mix_force_opacity A B el).2.2[el.length]? = some (scalarNode 1))
  ∧ (A.lookup "Opacity" = none → B.lookup "Opacity" = none →
      mix_force_opacity A B el = (A, B, el))
  ∧ (∃ t, el' = el ++ t)
  ∧ (∀ k, k ≠ "Opacity" → B.lookup k = none → res.lookup k = A.lookup k)
  ∧ (∀ k v, k ≠ "Opacity" → B.lookup k = some v → A.lookup k = none →
      res.lookup k = some v)
  ∧ (∀ k v, k ≠ "Opacity" → B.lookup k = some v → (A.lookup k).isSome = true →
      ∃ i, res.lookup k = some (some ⟨i, 0⟩) ∧
        el'[i]? = some (Node.mk "LinearInterpolate" []
          [exp_input "0" (pyGet A k), exp_input "1" v,
           exp_input "2" (fac_of (mix_force_opacity A B el).2.2).1]))
  ∧ ((A.lookup "Opacity").isSome = true → B.lookup "Opacity" = none →
      ∃ i j, res.lookup "Opacity" = some (some ⟨i, 0⟩) ∧
        el'[j]? = some (scalarNode 1) ∧
        el'[i]? = some (Node.mk "LinearInterpolate" []
          [exp_input "0" (pyGet A "Opacity"), exp_input "1" (some ⟨j, 0⟩),
           exp_input "2" (fac_of (mix_force_opacity A B el).2.2).1])) := by
  unfold mix_shader_merge at h
  cases hAo : (A.lookup "Opacity").isSome with
  | true =>
    cases hBo : (B.lookup "Opacity").isSome with
    | true =>
      -- both sides already carry Opacity: no forcing
      have hmf : mix_force_opacity A B el = (A, B, el) := by
        simp only [mix_force_opacity]
        rw [hAo, hBo]
        rfl
      rw [hmf] at h ⊢
      dsimp only at h ⊢
      have hres : (mix_shader_loop (fac_of el).1 B A (fac_of el).2).1 = res := by
        rw [h]
      have hel : (mix_shader_loop (fac_of el).1 B A (fac_of el).2).2 = el' := by
        rw [h]
      obtain ⟨lext, lout, lboth, lone⟩ :=
        mix_shader_loop_spec (fac_of el).1 B A (fac_of el).2 hndB
      rw [hres] at lout lboth lone
      rw [hel] at lext lboth
      refine ⟨fun _ => ⟨hAo, hBo⟩, fun _ => rfl, fun _ => rfl, ?_, ?_,
        fun _ _ => rfl,
        exists_ext_trans (hfac el) lext,
        fun k _ hn => lout k ((lookup_eq_none_iff B k).mp hn),
        fun k v _ hv hn => lone k v hv hn,
        fun k v _ hv hs => lboth k v hv hs, ?_⟩
      · intro hn _
        rw [hn] at hAo
        simp at hAo
      · intro hn _
        rw [hn] at hBo
        simp at hBo
      · intro _ hn
        rw [hn] at hBo
        simp at hBo
    | false =>
      -- only the first side carries Opacity: synthesize into the second
      have hBn : B.lookup "Opacity" = none := by
        cases hx : B.lookup "Opacity" with
        | none => rfl
        | some _ => rw [hx] at hBo; cases hBo
      have hmf : mix_force_opacity A B el
          = (A, setKey B "Opacity" (some ⟨el.length, 0⟩), el ++ [scalarNode 1]) := by
        simp only [mix_force_opacity, exp_scalar, exp_list_push]
        rw [hAo, hBo]
        rfl
      rw [hmf] at h ⊢
      dsimp only at h ⊢
      have hndB1 : ((setKey B "Opacity" (some (⟨el.length, 0⟩ : Ref))).map
          Prod.fst).Nodup := by
        rw [keys_setKey_of_none B _ _ hBn]
        refine List.Nodup.append hndB (List.nodup_singleton _) ?_
        intro x hx hxo
        rw [List.mem_singleton] at hxo
        subst hxo
        exact (lookup_eq_none_iff B _).mp hBn hx
      have hres : (mix_shader_loop (fac_of (el ++ [scalarNode 1])).1
          (setKey B "Opacity" (some ⟨el.length, 0⟩)) A
          (fac_of (el ++ [scalarNode 1])).2).1 = res := by
        rw [h]
      have hel : (mix_shader_loop (fac_of (el ++ [scalarNode 1])).1
          (setKey B "Opacity" (some ⟨el.length, 0⟩)) A
          (fac_of (el ++ [scalarNode 1])).2).2 = el' := by
        rw [h]
      obtain ⟨lext, lout, lboth, lone⟩ :=
        mix_shader_loop_spec (fac_of (el ++ [scalarNode 1])).1
          (setKey B "Opacity" (some ⟨el.length, 0⟩)) A
          (fac_of (el ++ [scalarNode 1])).2 hndB1
      rw [hres] at lout lboth lone
      rw [hel] at lext lboth
      have hext : ∃ t, el' = el ++ t :=
        exists_ext_trans (exists_ext_trans ⟨_, rfl⟩
          (hfac (el ++ [scalarNode 1]))) lext
      refine ⟨fun _ => ⟨hAo, by rw [lookup_setKey_self]; rfl⟩,
        fun _ => rfl, ?_, ?_,
        fun _ _ => ⟨lookup_setKey_self _ _ _, getElem?_concat_self el _⟩,
        ?_, hext, ?_, ?_, ?_, ?_⟩
      · intro hs
        simp at hs
      · intro hn _
        rw [hn] at hAo
        simp at hAo
      · intro hn _
        rw [hn] at hAo
        simp at hAo
      · intro k hk hn
        refine lout k ?_
        rw [keys_setKey_of_none B _ _ hBn]
        simp only [List.mem_append, List.mem_singleton, not_or]
        exact ⟨fun hm => (lookup_eq_none_iff B k).mp hn hm, hk⟩
      · intro k v hk hv hn
        exact lone k v (by rw [lookup_setKey_ne _ hk _]; exact hv) hn
      · intro k v hk hv hs
        exact lboth k v (by rw [lookup_setKey_ne _ hk _]; exact hv) hs
      · intro _ _
        obtain ⟨i, h1, h2⟩ :=
          lboth "Opacity" (some ⟨el.length, 0⟩) (lookup_setKey_self _ _ _) hAo
        refine ⟨i, el.length, h1, ?_, h2⟩
        obtain ⟨tf, htf⟩ := hfac (el ++ [scalarNode 1])
        obtain ⟨tl, htl⟩ := lext
        rw [htl, htf]
        exact getElem?_append_left_of_some (getElem?_append_left_of_some
          (getElem?_concat_self el _))
  | false =>
    have hAn : A.lookup "Opacity" = none := by
      cases hx : A.lookup "Opacity" with
      | none => rfl
      | some _ => rw [hx] at hAo; cases hAo
    cases hBo : (B.lookup "Opacity").isSome with
    | true =>
      -- only the second side carries Opacity: synthesize into the first
      have hmf : mix_force_opacity A B el
          = (setKey A "Opacity" (some ⟨el.length, 0⟩), B, el ++ [scalarNode 1]) := by
        simp only [mix_force_opacity, exp_scalar, exp_list_push]
        rw [hAo, hBo]
        rfl
      rw [hmf] at h ⊢
      dsimp only at h ⊢
      have hres : (mix_shader_loop (fac_of (el ++ [scalarNode 1])).1 B
          (setKey A "Opacity" (some ⟨el.length, 0⟩))
          (fac_of (el ++ [scalarNode 1])).2).1 = res := by
        rw [h]
      have hel : (mix_shader_loop (fac_of (el ++ [scalarNode 1])).1 B
          (setKey A "Opacity" (some ⟨el.length, 0⟩))
          (fac_of (el ++ [scalarNode 1])).2).2 = el' := by
        rw [h]
      obtain ⟨lext, lout, lboth, lone⟩ :=
        mix_shader_loop_spec (fac_of (el ++ [scalarNode 1])).1 B
          (setKey A "Opacity" (some ⟨el.length, 0⟩))
          (fac_of (el ++ [scalarNode 1])).2 hndB
      rw [hres] at lout lboth lone
      rw [hel] at lext lboth
      have hext : ∃ t, el' = el ++ t :=
        exists_ext_trans (exists_ext_trans ⟨_, rfl⟩
          (hfac (el ++ [scalarNode 1]))) lext
      refine ⟨fun _ => ⟨by rw [lookup_setKey_self]; rfl, hBo⟩,
        ?_, fun _ => rfl,
        fun _ _ => ⟨lookup_setKey_self _ _ _, getElem?_concat_self el _⟩,
        ?_, ?_, hext, ?_, ?_, ?_, ?_⟩
      · intro hs
        simp at hs
      · intro hn _
        rw [hn] at hBo
        simp at hBo
      · intro _ hn
        rw [hn] at hBo
        simp at hBo
      · intro k hk hn
        rw [lout k ((lookup_eq_none_iff B k).mp hn), lookup_setKey_ne _ hk _]
      · intro k v hk hv hn
        exact lone k v hv (by rw [lookup_setKey_ne _ hk _]; exact hn)
      · intro k v hk hv hs
        obtain ⟨i, h1, h2⟩ :=
          lboth k v hv (by rw [lookup_setKey_ne _ hk _]; exact hs)
        rw [pyGet_setKey_ne A hk _] at h2
        exact ⟨i, h1, h2⟩
      · intro hs _
        simp at hs
    | false =>
      -- neither side carries Opacity: no forcing at all
      have hmf : mix_force_opacity A B el = (A, B, el) := by
        simp only [mix_force_opacity]
        rw [hAo, hBo]
        rfl
      rw [hmf] at h ⊢
      dsimp only at h ⊢
      have hres : (mix_shader_loop (fac_of el).1 B A (fac_of el).2).1 = res := by
        rw [h]
      have hel : (mix_shader_loop (fac_of el).1 B A (fac_of el).2).2 = el' := by
        rw [h]
      obtain ⟨lext, lout, lboth, lone⟩ :=
        mix_shader_loop_spec (fac_of el).1 B A (fac_of el).2 hndB
      rw [hres] at lout lboth lone
      rw [hel] at lext lboth
      refine ⟨?_, ?_, ?_, ?_, ?_, fun _ _ => rfl,
        exists_ext_trans (hfac el) lext,
        fun k _ hn => lout k ((lookup_eq_none_iff B k).mp hn),
        fun k v _ hv hn => lone k v hv hn,
        fun k v _ hv hs => lboth k v hv hs, ?_⟩
      · intro hor
        rcases hor with hs | hs
        · simp at hs
        · simp at hs
      · intro hs
        simp at hs
      · intro hs
        simp at hs
      · intro _ hs
        simp at hs
      · intro _ hs
        simp at hs
      · intro hs _
        simp at hs

/-- Witness for C2's theorem at a concrete mix where only the first
aggregate carries `Opacity`: the second side gets a synthesized constant
1 and the final `Opacity` interpolates the first side's value against it
by the mix factor. -/
theorem c2_mix_shader_characterization_witness :
    (((([("Opacity", some (⟨0, 0⟩ : Ref))] : Aggregate).lookup "Opacity").isSome = true ∨ (([("BaseColor", some (⟨0, 0⟩ : Ref))] : Aggregate).lookup "Opacity").isSome = true) →
      ((mix_force_opacity [("Opacity", some (⟨0, 0⟩ : Ref))] [("BaseColor", some (⟨0, 0⟩ : Ref))] [scalarNode 9]).1.lookup "Opacity").isSome = true
      ∧ ((mix_force_opacity [("Opacity", some (⟨0, 0⟩ : Ref))] [("BaseColor", some (⟨0, 0⟩ : Ref))] [scalarNode 9]).2.1.lookup "Opacity").isSome = true)
  ∧ ((([("Opacity", some (⟨0, 0⟩ : Ref))] : Aggregate).lookup "Opacity").isSome = true → (mix_force_opacity [("Opacity", some (⟨0, 0⟩ : Ref))] [("BaseColor", some (⟨0, 0⟩ : Ref))] [scalarNode 9]).1 = [("Opacity", some (⟨0, 0⟩ : Ref))])
  ∧ ((([("BaseColor", some (⟨0, 0⟩ : Ref))] : Aggregate).lookup "Opacity").isSome = true → (mix_force_opacity [("Opacity", some (⟨0, 0⟩ : Ref))] [("BaseColor", some (⟨0, 0⟩ : Ref))] [scalarNode 9]).2.1 = [("BaseColor", some (⟨0, 0⟩ : Ref))])
  ∧ (([("Opacity", some (⟨0, 0⟩ : Ref))] : Aggregate).lookup "Opacity" = none → (([("BaseColor", some (⟨0, 0⟩ : Ref))] : Aggregate).lookup "Opacity").isSome = true →
      (mix_force_opacity [("Opacity", some (⟨0, 0⟩ : Ref))] [("BaseColor", some (⟨0, 0⟩ : Ref))] [scalarNode 9]).1.lookup "Opacity" = some (some ⟨([scalarNode 9] : ExpList).length, 0⟩)
      ∧ (mix_force_opacity [("Opacity", some (⟨0, 0⟩ : Ref))] [("BaseColor", some (⟨0, 0⟩ : Ref))] [scalarNode 9]).2.2[([scalarNode 9] : ExpList).length]? = some (scalarNode 1))
  ∧ (([("BaseColor", some (⟨0, 0⟩ : Ref))] : Aggregate).lookup "Opacity" = none → (([("Opacity", some (⟨0, 0⟩ : Ref))] : Aggregate).lookup "Opacity").isSome = true →
      (mix_force_opacity [("Opacity", some (⟨0, 0⟩ : Ref))] [("BaseColor", some (⟨0, 0⟩ : Ref))] [scalarNode 9]).2.1.lookup "Opacity" = some (some ⟨([scalarNode 9] : ExpList).length, 0⟩)
      ∧ (mix_force_opacity [("Opacity", some (⟨0, 0⟩ : Ref))] [("BaseColor", some (⟨0, 0⟩ : Ref))] [scalarNode 9]).2.2[([scalarNode 9] : ExpList).length]? = some (scalarNode 1))
  ∧ (([("Opacity", some (⟨0, 0⟩ : Ref))] : Aggregate).lookup "Opacity" = none → ([("BaseColor", some (⟨0, 0⟩ : Ref))] : Aggregate).lookup "Opacity" = none →
      mix_force_opacity [("Opacity", some (⟨0, 0⟩ : Ref))] [("BaseColor", some (⟨0, 0⟩ : Ref))] [scalarNode 9] = ([("Opacity", some (⟨0, 0⟩ : Ref))], [("BaseColor", some (⟨0, 0⟩ : Ref))], [scalarNode 9]))
  ∧ (∃ t, ([scalarNode 9, scalarNode 1,
      Node.mk "LinearInterpolate" []
        [exp_input "0" (some ⟨0, 0⟩), exp_input "1" (some ⟨1, 0⟩),
         exp_input "2" (some ⟨7, 0⟩)]] : ExpList) = [scalarNode 9] ++ t)
  ∧ (∀ k, k ≠ "Opacity" → ([("BaseColor", some (⟨0, 0⟩ : Ref))] : Aggregate).lookup k = none → ([("Opacity", some (⟨2, 0⟩ : Ref)), ("BaseColor", some (⟨0, 0⟩ : Ref))] : Aggregate).lookup k = ([("Opacity", some (⟨0, 0⟩ : Ref))] : Aggregate).lookup k)
  ∧ (∀ k v, k ≠ "Opacity" → ([("BaseColor", some (⟨0, 0⟩ : Ref))] : Aggregate).lookup k = some v → ([("Opacity", some (⟨0, 0⟩ : Ref))] : Aggregate).lookup k = none →
      ([("Opacity", some (⟨2, 0⟩ : Ref)), ("BaseColor", some (⟨0, 0⟩ : Ref))] : Aggregate).lookup k = some v)
  ∧ (∀ k v, k ≠ "Opacity" → ([("BaseColor", some (⟨0, 0⟩ : Ref))] : Aggregate).lookup k = some v → (([("Opacity", some (⟨0, 0⟩ : Ref))] : Aggregate).lookup k).isSome = true →
      ∃ i, ([("Opacity", some (⟨2, 0⟩ : Ref)), ("BaseColor", some (⟨0, 0⟩ : Ref))] : Aggregate).lookup k = some (some ⟨i, 0⟩) ∧
        ([scalarNode 9, scalarNode 1,
      Node.mk "LinearInterpolate" []
        [exp_input "0" (some ⟨0, 0⟩), exp_input "1" (some ⟨1, 0⟩),
         exp_input "2" (some ⟨7, 0⟩)]] : ExpList)[i]? = some (Node.mk "LinearInterpolate" []
          [exp_input "0" (pyGet [("Opacity", some (⟨0, 0⟩ : Ref))] k), exp_input "1" v,
           exp_input "2" ((fun e => (some (⟨7, 0⟩ : Ref), e)) (mix_force_opacity [("Opacity", some (⟨0, 0⟩ : Ref))] [("BaseColor", some (⟨0, 0⟩ : Ref))] [scalarNode 9]).2.2).1]))
  ∧ ((([("Opacity", some (⟨0, 0⟩ : Ref))] : Aggregate).lookup "Opacity").isSome = true → ([("BaseColor", some (⟨0, 0⟩ : Ref))] : Aggregate).lookup "Opacity" = none →
      ∃ i j, ([("Opacity", some (⟨2, 0⟩ : Ref)), ("BaseColor", some (⟨0, 0⟩ : Ref))] : Aggregate).lookup "Opacity" = some (some ⟨i, 0⟩) ∧
        ([scalarNode 9, scalarNode 1,
      Node.mk "LinearInterpolate" []
        [exp_input "0" (some ⟨0, 0⟩), exp_input "1" (some ⟨1, 0⟩),
         exp_input "2" (some ⟨7, 0⟩)]] : ExpList)[j]? = some (scalarNode 1) ∧
        ([scalarNode 9, scalarNode 1,
      Node.mk "LinearInterpolate" []
        [exp_input "0" (some ⟨0, 0⟩), exp_input "1" (some ⟨1, 0⟩),
         exp_input "2" (some ⟨7, 0⟩)]] : ExpList)[i]? = some (Node.mk "LinearInterpolate" []
          [exp_input "0" (pyGet [("Opacity", some (⟨0, 0⟩ : Ref))] "Opacity"), exp_input "1" (some ⟨j, 0⟩),
           exp_input "2" ((fun e => (some (⟨7, 0⟩ : Ref), e)) (mix_force_opacity [("Opacity", some (⟨0, 0⟩ : Ref))] [("BaseColor", some (⟨0, 0⟩ : Ref))] [scalarNode 9]).2.2).1])) :=
  c2_mix_shader_characterization
    [("Opacity", some ⟨0, 0⟩)] [("BaseColor", some ⟨0, 0⟩)]
    (fun e => (some (⟨7, 0⟩ : Ref), e)) [scalarNode 9]
    [("Opacity", some ⟨2, 0⟩), ("BaseColor", some ⟨0, 0⟩)]
    [scalarNode 9, scalarNode 1,
     Node.mk "LinearInterpolate" []
       [exp_input "0" (some ⟨0, 0⟩), exp_input "1" (some ⟨1, 0⟩),
        exp_input "2" (some ⟨7, 0⟩)]]
    rfl (by decide) (fun e => ⟨[], by simp⟩)

end BlDatasmith
